import Mathlib

/-!
The statement-count tracer `crappy_multitasking`.

Shallow embedding of `webclient/repl/src/crappy-python-multitasking/crappy_multitasking.c`.

The C module keeps two process-wide `long` scalars (`trace_inspect_interval`, `tracetick`)
and registers `trace_trampoline` with the interpreter through `PyEval_SetTrace`, passing the
callback as the hook's context object.  The embedding keeps

* the two scalars as `Int`, the decrement wrapping modulo `2 ^ LONG_BITS`;
* the interpreter's trace slot as `Option PyObj` (`some cb`: `trace_trampoline` installed with
  context `cb`; `none`: nothing installed);
* the interpreter itself (`PyArg_ParseTuple`, `_PyObject_CallNoArg`, the event dispatch) as
  explicit definitions over which the theorems quantify.
-/

namespace CrappyMultitasking

/-! Python values, errors, argument parsing -/

/-- A Python object as far as this module can tell objects apart: `None`, an `int`, an
object that is not an `int` but converts to one through `__index__` (which returns `v`), and
any other object. -/
inductive PyObj where
  | none
  | int (v : Int)
  | idx (id : Nat) (v : Int)
  | obj (id : Nat)
deriving DecidableEq, Repr

/-- The integer an object converts to (`PyLong_AsLong` before the range check): the value of
an `int`, the result of `__index__` for an object that has it, nothing otherwise. -/
def PyObj.asIndex : PyObj → Option Int
  | .int v => some v
  | .idx _ v => some v
  | _ => Option.none

/-- The exceptions that the module's entry points can leave set. -/
inductive PyErr where
  | ValueError (msg : String)
  | TypeError
  | OverflowError
deriving DecidableEq, Repr

/-- Result of an entry point: a returned object, or `NULL` with an exception set. -/
inductive PyResult where
  | ok (v : PyObj)
  | error (e : PyErr)
deriving DecidableEq, Repr

/-- A call of one of the four entry points of the method table, with its argument tuple. -/
inductive ModCall where
  | start (args : List PyObj)
  | end_ (args : List PyObj)
  | get_interval (args : List PyObj)
  | set_interval (args : List PyObj)
deriving DecidableEq, Repr

/-- What a zero-argument call of an object does: the module calls it makes and whether the
call returns the error indicator (`NULL`). -/
structure Invocation where
  calls : List ModCall
  raises : Bool
deriving DecidableEq, Repr

/-- The hosting interpreter: the width of a C `long` (at least 32 bits, as C requires) and the
behaviour of `_PyObject_CallNoArg cb` on the `n`-th callback invocation of the run
(`n` counts from 0). -/
structure Interp where
  LONG_BITS : Nat
  long_ok : 32 ≤ LONG_BITS
  call : PyObj → Nat → Invocation

def LONG_MAX (w : Nat) : Int := 2 ^ (w - 1) - 1

def LONG_MIN (w : Nat) : Int := -(2 ^ (w - 1))

/-- Two's complement reduction of an integer to a `w`-bit signed `long`. -/
def wrapLong (w : Nat) (x : Int) : Int := (x + 2 ^ (w - 1)) % 2 ^ w - 2 ^ (w - 1)

/-- Model of `PyArg_ParseTuple(args, "O", &o)`: exactly one argument, any object. -/
def PyArg_ParseTuple_O (args : List PyObj) : Except PyErr PyObj :=
  match args with
  | [o] => .ok o
  | _ => .error .TypeError

/-- Model of `PyArg_ParseTuple(args, "l", &x)`: exactly one argument, which converts to an
integer (an `int`, or an object with `__index__`) that fits a C `long`. -/
def PyArg_ParseTuple_l (w : Nat) (args : List PyObj) : Except PyErr Int :=
  match args with
  | [o] =>
    match o.asIndex with
    | some v => if LONG_MIN w ≤ v ∧ v ≤ LONG_MAX w then .ok v else .error .OverflowError
    | Option.none => .error .TypeError
  | _ => .error .TypeError

/-! Module state and entry points -/

/-- The module's globals together with the interpreter's trace slot. -/
structure State where
  trace_inspect_interval : Int
  tracetick : Int
  hook : Option PyObj
deriving DecidableEq, Repr

/-- State at module load: `static long trace_inspect_interval = -1; static long tracetick = -1;`
and no trace function installed. -/
def State.init : State := ⟨-1, -1, none⟩

/-- Tracing is Active when `trace_trampoline` is installed. -/
def State.active (s : State) : Bool := s.hook.isSome

/-- Model of `PyEval_SetTrace(trace_trampoline, cb)` (`some cb`) and
`PyEval_SetTrace(NULL, NULL)` (`none`). -/
def PyEval_SetTrace (s : State) (arg : Option PyObj) : State := { s with hook := arg }

def crappy_multitasking__start (s : State) (args : List PyObj) : PyResult × State :=
  if s.trace_inspect_interval ≤ 0 then
    (.error (.ValueError "You must call \x27set_interval\x27 before calling \x27start\x27."), s)
  else
    let s1 := { s with tracetick := s.trace_inspect_interval }
    match PyArg_ParseTuple_O args with
    | .error e => (.error e, s1)
    | .ok callback => (.ok .none, PyEval_SetTrace s1 (some callback))

def crappy_multitasking__end (s : State) (_args : List PyObj) : PyResult × State :=
  (.ok .none, PyEval_SetTrace s none)

def crappy_multitasking__get_interval (s : State) (_args : List PyObj) : PyResult × State :=
  (.ok (.int s.trace_inspect_interval), s)

def crappy_multitasking__set_interval (w : Nat) (s : State) (args : List PyObj) :
    PyResult × State :=
  match PyArg_ParseTuple_l w args with
  | .error e => (.error e, s)
  | .ok new_interval =>
    if new_interval ≤ 0 then
      (.error (.ValueError "Interval should be nonnegative!"), s)
    else
      (.ok .none, { s with trace_inspect_interval := new_interval })

/-- Dispatch of one call through the module's method table. -/
def ModCall.exec (w : Nat) (s : State) : ModCall → PyResult × State
  | .start args => crappy_multitasking__start s args
  | .end_ args => crappy_multitasking__end s args
  | .get_interval args => crappy_multitasking__get_interval s args
  | .set_interval args => crappy_multitasking__set_interval w s args

/-- A sequence of module calls, left to right; the results are collected. -/
def exec_calls (w : Nat) (s : State) : List ModCall → List PyResult × State
  | [] => ([], s)
  | c :: cs =>
    let r := c.exec w s
    let rs := exec_calls w r.2 cs
    (r.1 :: rs.1, rs.2)

/-! The tracer and the event dispatch of the host -/

/-- The module state inside a run of the interpreter, with two observation fields:
`nevents` counts the execution events delivered so far and `fired` lists, oldest first, the
callback invocations as (event number, callback). -/
structure Host where
  st : State
  nevents : Nat
  fired : List (Nat × PyObj)
deriving DecidableEq, Repr

def callback_trampoline (I : Interp) (h : Host) (callback : PyObj) : Int × Host :=
  let result := I.call callback h.fired.length
  let h1 : Host :=
    { h with
      st := (exec_calls I.LONG_BITS h.st result.calls).2
      fired := h.fired ++ [(h.nevents, callback)] }
  if result.raises then
    (-1, { h1 with st := PyEval_SetTrace h1.st none })
  else
    (0, h1)

def trace_trampoline (I : Interp) (h : Host) (self : PyObj) (_frame : Nat) (_what : Int)
    (_arg : PyObj) : Int × Host :=
  let callback := self
  let tracetick := wrapLong I.LONG_BITS (h.st.tracetick - 1)
  if tracetick = 0 then
    callback_trampoline I
      { h with st := { h.st with tracetick := h.st.trace_inspect_interval } } callback
  else
    (0, { h with st := { h.st with tracetick := tracetick } })

/-- An execution event as the interpreter passes it to a trace function. -/
structure Event where
  frame : Nat
  what : Int
  arg : PyObj
deriving DecidableEq, Repr

/-- The interpreter delivering one execution event: the installed trace function, if any, is
called with its context object; the result is the trace function's return value. -/
def trace_event (I : Interp) (h : Host) (ev : Event) : Option Int × Host :=
  let h0 : Host := { h with nevents := h.nevents + 1 }
  match h.st.hook with
  | none => (none, h0)
  | some cb =>
    let r := trace_trampoline I h0 cb ev.frame ev.what ev.arg
    (some r.1, r.2)

/-- A run of consecutive execution events. -/
def run (I : Interp) (h : Host) : List Event → List (Option Int) × Host
  | [] => ([], h)
  | ev :: evs =>
    let r := trace_event I h ev
    let rs := run I r.2 evs
    (r.1 :: rs.1, rs.2)

/-- A host observing from module state `s`, before any event. -/
def Host.ofState (s : State) : Host := ⟨s, 0, []⟩

/-- A well-behaved callback: every invocation returns normally without calling the module. -/
def Interp.quiet (I : Interp) (cb : PyObj) : Prop := ∀ n, I.call cb n = ⟨[], false⟩

/-- What the traced program and the interpreter do to the module, one step at a time:
the program calls an entry point, or the interpreter delivers an execution event. -/
inductive Action where
  | call (c : ModCall)
  | event (ev : Event)
deriving DecidableEq, Repr

def Host.step (I : Interp) (h : Host) : Action → Host
  | .call c => { h with st := (c.exec I.LONG_BITS h.st).2 }
  | .event ev => (trace_event I h ev).2

def Host.steps (I : Interp) (h : Host) : List Action → Host
  | [] => h
  | a :: as => Host.steps I (Host.step I h a) as

def ModCall.isSetInterval : ModCall → Bool
  | .set_interval _ => true
  | _ => false

def PyResult.isOk : PyResult → Bool
  | .ok _ => true
  | .error _ => false

/-- Whether a step of the traced program is a direct call of `set_interval`. -/
def Action.isSetInterval : Action → Bool
  | .call c => c.isSetInterval
  | .event _ => false

/-- Whether some `set_interval` call of the sequence `calls`, whose results were `results`,
succeeded. -/
def set_interval_succeeded (calls : List ModCall) (results : List PyResult) : Bool :=
  (calls.zip results).any (fun p => p.1.isSetInterval && p.2.isOk)

/-- The error `start` raises when no interval is configured. -/
def start_state_error : PyErr :=
  .ValueError "You must call \x27set_interval\x27 before calling \x27start\x27."

/-- The error `set_interval` raises on a non-positive interval. -/
def set_interval_value_error : PyErr := .ValueError "Interval should be nonnegative!"

/-- The host right after `set_interval(N)` and `start(cb)` issued from module state `s`,
before any event of the traced body. -/
def session (I : Interp) (s : State) (N : Int) (cb : PyObj) : Host :=
  Host.ofState (crappy_multitasking__start
    (crappy_multitasking__set_interval I.LONG_BITS s [.int N]).2 [cb]).2

/-- Number of firings among the next `k` events when the countdown stands at `c` and is
reset to `M` at every firing. -/
def firings (c M k : Nat) : Nat := if k < c then 0 else (k - c) / M + 1

/-- Value of the countdown after `k` events, started at `c` and reset to `M` at every firing. -/
def remaining (c M k : Nat) : Nat := if k < c then c - k else M - (k - c) % M

/-- A sample interpreter with 64-bit `long` whose callables all return normally. -/
def I64 : Interp := ⟨64, by decide, fun _ _ => ⟨[], false⟩⟩

/-- A sample execution event. -/
def ev0 : Event := ⟨0, 0, .none⟩

/-- An interpreter with 64-bit `long` in which every callable raises at once. -/
def I64raise : Interp := ⟨64, by decide, fun _ _ => ⟨[], true⟩⟩

/-- An interpreter with 64-bit `long` in which every callable calls `end()` and returns. -/
def I64end : Interp := ⟨64, by decide, fun _ _ => ⟨[.end_ []], false⟩⟩

/-- An interpreter with 64-bit `long` in which every callable returns normally the first
time it is invoked in a run and raises from then on. -/
def I64late : Interp :=
  ⟨64, by decide, fun _ n => if n = 0 then ⟨[], false⟩ else ⟨[], true⟩⟩

/-- An interpreter with 64-bit `long` in which every callable returns normally the first
time it is invoked in a run and from then on calls `end()` before returning. -/
def I64endLater : Interp :=
  ⟨64, by decide, fun _ n => if n = 0 then ⟨[], false⟩ else ⟨[.end_ []], false⟩⟩

/-- The state invariant of the module: the interval is the sentinel -1 or a positive `long`,
the countdown is its initial -1 or positive, and while a trace function is installed both
are positive `long`s. -/
def State.wf (w : Nat) (s : State) : Prop :=
  (s.trace_inspect_interval = -1 ∨ 1 ≤ s.trace_inspect_interval) ∧
  s.trace_inspect_interval ≤ LONG_MAX w ∧
  (s.tracetick = -1 ∨ 1 ≤ s.tracetick) ∧
  s.tracetick ≤ LONG_MAX w ∧
  (s.hook ≠ none → 1 ≤ s.trace_inspect_interval ∧ 1 ≤ s.tracetick)

instance (w : Nat) (s : State) : Decidable (State.wf w s) := by
  unfold State.wf
  exact inferInstance

/-! Basic facts -/

theorem two_pow_bits (w : Nat) (hw : 1 ≤ w) : (2 : Int) ^ w = 2 * 2 ^ (w - 1) := by
  obtain ⟨k, rfl⟩ : ∃ k, w = k + 1 := ⟨w - 1, by omega⟩
  simp [pow_succ]
  ring

theorem wrapLong_of_range (w : Nat) (hw : 1 ≤ w) (x : Int) (h1 : LONG_MIN w ≤ x)
    (h2 : x ≤ LONG_MAX w) : wrapLong w x = x := by
  unfold wrapLong
  unfold LONG_MIN at h1
  unfold LONG_MAX at h2
  rw [two_pow_bits w hw]
  have hp : (0 : Int) < 2 ^ (w - 1) := by positivity
  generalize (2 : Int) ^ (w - 1) = p at *
  rw [Int.emod_eq_of_lt (by omega) (by omega)]
  omega

theorem LONG_MAX_pos (I : Interp) : 1 ≤ LONG_MAX I.LONG_BITS := by
  unfold LONG_MAX
  have h := I.long_ok
  have : (2 : Int) ^ 1 ≤ 2 ^ (I.LONG_BITS - 1) :=
    pow_le_pow_right₀ (by norm_num) (by omega)
  omega

theorem LONG_MIN_neg (I : Interp) : LONG_MIN I.LONG_BITS ≤ -2 := by
  have := LONG_MAX_pos I
  unfold LONG_MIN
  unfold LONG_MAX at this
  omega

theorem wrapLong_dec (I : Interp) (t : Int) (h1 : 1 ≤ t) (h2 : t ≤ LONG_MAX I.LONG_BITS) :
    wrapLong I.LONG_BITS (t - 1) = t - 1 := by
  have := LONG_MIN_neg I
  have := I.long_ok
  exact wrapLong_of_range _ (by omega) _ (by omega) (by omega)

theorem trace_trampoline_countdown (I : Interp) (h : Host) (self : PyObj) (frame : Nat)
    (what : Int) (arg : PyObj) (h1 : 2 ≤ h.st.tracetick)
    (h2 : h.st.tracetick ≤ LONG_MAX I.LONG_BITS) :
    trace_trampoline I h self frame what arg
      = (0, { h with st := { h.st with tracetick := h.st.tracetick - 1 } }) := by
  unfold trace_trampoline
  simp only
  rw [wrapLong_dec I _ (by omega) h2]
  rw [if_neg (by omega)]

theorem trace_trampoline_fire (I : Interp) (h : Host) (self : PyObj) (frame : Nat)
    (what : Int) (arg : PyObj) (h1 : h.st.tracetick = 1) :
    trace_trampoline I h self frame what arg
      = callback_trampoline I
          { h with st := { h.st with tracetick := h.st.trace_inspect_interval } } self := by
  unfold trace_trampoline
  simp only
  have := LONG_MAX_pos I
  rw [wrapLong_dec I _ (by omega) (by omega)]
  rw [if_pos (by omega)]

theorem callback_trampoline_quiet (I : Interp) (h : Host) (cb : PyObj) (hq : I.quiet cb) :
    callback_trampoline I h cb = (0, { h with fired := h.fired ++ [(h.nevents, cb)] }) := by
  unfold callback_trampoline
  simp [hq h.fired.length, exec_calls]

theorem firings_zero (c M : Nat) (hc : 1 ≤ c) : firings c M 0 = 0 := by
  unfold firings
  rw [if_pos (by omega)]

theorem remaining_zero (c M : Nat) (hc : 1 ≤ c) : remaining c M 0 = c := by
  unfold remaining
  rw [if_pos (by omega)]
  omega

theorem firings_countdown (c M k : Nat) (hc : 2 ≤ c) :
    firings c M (k + 1) = firings (c - 1) M k := by
  unfold firings
  by_cases hk : k + 1 < c
  · rw [if_pos hk, if_pos (by omega)]
  · rw [if_neg hk, if_neg (by omega)]
    have : k + 1 - c = k - (c - 1) := by omega
    rw [this]

theorem remaining_countdown (c M k : Nat) (hc : 2 ≤ c) :
    remaining c M (k + 1) = remaining (c - 1) M k := by
  unfold remaining
  by_cases hk : k + 1 < c
  · rw [if_pos hk, if_pos (by omega)]
    omega
  · rw [if_neg hk, if_neg (by omega)]
    have : k + 1 - c = k - (c - 1) := by omega
    rw [this]

theorem firings_fire (M k : Nat) (hM : 1 ≤ M) : firings 1 M (k + 1) = firings M M k + 1 := by
  unfold firings
  rw [if_neg (by omega)]
  by_cases hk : k < M
  · rw [if_pos hk]
    simp [Nat.div_eq_of_lt hk]
  · rw [if_neg hk]
    have : k + 1 - 1 = k := by omega
    rw [this, Nat.div_eq_sub_div (by omega) (by omega)]

theorem remaining_fire (M k : Nat) : remaining 1 M (k + 1) = remaining M M k := by
  unfold remaining
  rw [if_neg (by omega)]
  have : k + 1 - 1 = k := by omega
  rw [this]
  by_cases hk : k < M
  · rw [if_pos hk, Nat.mod_eq_of_lt hk]
  · rw [if_neg hk, Nat.mod_eq_sub_mod (by omega)]

theorem remaining_pos (c M k : Nat) (hM : 1 ≤ M) : 1 ≤ remaining c M k := by
  unfold remaining
  split
  · omega
  · have := Nat.mod_lt (k - c) (show 0 < M by omega)
    omega

theorem remaining_le (c M k : Nat) : remaining c M k ≤ max c M := by
  unfold remaining
  split <;> omega

/-- Schedule of a quiet callback: from an Active state whose countdown stands at `c` and
whose interval is `M`, `k` events all return 0 and fire the callback on events
`c, c + M, c + 2 M, ...` (counted from the first of the `k`). -/
theorem run_quiet (I : Interp) (cb : PyObj) (hq : I.quiet cb) (M : Nat) (hM : 1 ≤ M)
    (hMmax : (M : Int) ≤ LONG_MAX I.LONG_BITS) (evs : List Event) :
    ∀ (h : Host) (c : Nat), h.st.hook = some cb → h.st.tracetick = (c : Int) →
      h.st.trace_inspect_interval = (M : Int) → 1 ≤ c → (c : Int) ≤ LONG_MAX I.LONG_BITS →
      run I h evs = (List.replicate evs.length (some 0),
        { st := { h.st with tracetick := (remaining c M evs.length : Nat) }
          nevents := h.nevents + evs.length
          fired := h.fired ++ (List.range (firings c M evs.length)).map
            (fun i => (h.nevents + c + i * M, cb)) }) := by
  induction evs with
  | nil =>
    intro h c _ ht _ hc _
    simp [run, firings_zero c M hc, remaining_zero c M hc, ← ht]
  | cons ev evs ih =>
    intro h c hh ht hi hc hcmax
    simp only [run, trace_event, hh, List.length_cons]
    by_cases h1 : c = 1
    · subst h1
      rw [trace_trampoline_fire I _ _ _ _ _ (by simpa using ht)]
      rw [callback_trampoline_quiet I _ _ hq]
      simp only
      rw [ih _ M (by simpa using hh) (by simpa using hi) (by simpa using hi) hM hMmax]
      simp only [firings_fire M _ hM, remaining_fire M _, List.range_succ_eq_map,
        List.map_cons, List.map_map, List.replicate_succ]
      refine Prod.ext rfl ?_
      simp only [List.append_assoc, List.singleton_append, zero_mul, add_zero, Host.mk.injEq,
        List.append_cancel_left_eq, List.cons.injEq, true_and]
      refine ⟨by rw [hh], by omega, ?_⟩
      apply List.map_congr_left
      intro i _
      simp only [Function.comp, Prod.mk.injEq, and_true, Nat.succ_eq_add_one]
      ring
    · rw [trace_trampoline_countdown I _ _ _ _ _ (by simp only; omega) (by simp only; omega)]
      simp only
      rw [ih _ (c - 1) (by simpa using hh) (by simp only; omega) (by simpa using hi)
        (by omega) (by omega)]
      simp only [firings_countdown c M _ (by omega), remaining_countdown c M _ (by omega),
        List.replicate_succ]
      refine Prod.ext rfl ?_
      simp only [Host.mk.injEq, List.append_cancel_left_eq, true_and]
      refine ⟨by rw [hh], by omega, ?_⟩
      apply List.map_congr_left
      intro i _
      simp only [Prod.mk.injEq, and_true]
      omega

theorem firings_self (N k : Nat) (hN : 1 ≤ N) : firings N N k = k / N := by
  unfold firings
  by_cases hk : k < N
  · rw [if_pos hk, Nat.div_eq_of_lt hk]
  · rw [if_neg hk]
    exact (Nat.div_eq_sub_div (by omega) (by omega)).symm

theorem set_interval_ok (I : Interp) (s : State) (N : Int) (hN : 1 ≤ N)
    (hmax : N ≤ LONG_MAX I.LONG_BITS) :
    crappy_multitasking__set_interval I.LONG_BITS s [.int N]
      = (.ok .none, { s with trace_inspect_interval := N }) := by
  have := LONG_MIN_neg I
  unfold crappy_multitasking__set_interval PyArg_ParseTuple_l
  simp only [PyObj.asIndex]
  rw [if_pos ⟨by omega, hmax⟩]
  simp only
  rw [if_neg (by omega)]

theorem start_ok (s : State) (cb : PyObj) (hi : 1 ≤ s.trace_inspect_interval) :
    crappy_multitasking__start s [cb]
      = (.ok .none, ⟨s.trace_inspect_interval, s.trace_inspect_interval, some cb⟩) := by
  unfold crappy_multitasking__start PyArg_ParseTuple_O PyEval_SetTrace
  rw [if_neg (by omega)]

theorem session_eq (I : Interp) (s : State) (N : Int) (cb : PyObj) (hN : 1 ≤ N)
    (hmax : N ≤ LONG_MAX I.LONG_BITS) :
    session I s N cb = ⟨⟨N, N, some cb⟩, 0, []⟩ := by
  unfold session
  rw [set_interval_ok I s N hN hmax, start_ok _ _ (by simpa using hN)]
  rfl

/-- With no trace function installed the interpreter calls nothing: events only advance
the event counter. -/
theorem run_inactive (I : Interp) (evs : List Event) :
    ∀ h : Host, h.st.hook = none →
      run I h evs = (List.replicate evs.length none,
        { h with nevents := h.nevents + evs.length }) := by
  induction evs with
  | nil => intro h _; rfl
  | cons ev evs ih =>
    intro h hh
    simp only [run, trace_event, hh, List.length_cons, List.replicate_succ]
    rw [ih _ (by simpa using hh)]
    refine Prod.ext rfl ?_
    simp only [Host.mk.injEq, and_true, true_and]
    omega

/-- While the countdown has not reached zero no callback runs, whatever the callbacks
would do. -/
theorem run_countdown (I : Interp) (cb : PyObj) (evs : List Event) :
    ∀ (h : Host) (c : Nat), h.st.hook = some cb → h.st.tracetick = (c : Int) →
      (c : Int) ≤ LONG_MAX I.LONG_BITS → evs.length < c →
      run I h evs = (List.replicate evs.length (some 0),
        { h with
          st := { h.st with tracetick := (c : Int) - evs.length }
          nevents := h.nevents + evs.length }) := by
  induction evs with
  | nil =>
    intro h c _ ht _ _
    simp [run, ← ht]
  | cons ev evs ih =>
    intro h c hh ht hcmax hlen
    simp only [List.length_cons] at hlen
    simp only [run, trace_event, hh, List.length_cons, List.replicate_succ]
    rw [trace_trampoline_countdown I _ _ _ _ _ (by simp only; omega) (by simp only; omega)]
    simp only
    rw [ih _ (c - 1) (by simpa using hh) (by simp only; omega) (by omega) (by omega)]
    refine Prod.ext rfl ?_
    simp only [Host.mk.injEq, and_true, State.mk.injEq, true_and]
    refine ⟨⟨?_, by rw [hh]⟩, by omega⟩
    push_cast
    omega

/-- The first firing: from an Active state whose countdown stands at `c`, the first `c - 1`
events return 0 without running any callback and event `c` enters the callback trampoline
with the countdown already reset to the interval. -/
theorem run_first_fire (I : Interp) (cb : PyObj) (evs : List Event) :
    ∀ (h : Host) (c : Nat), h.st.hook = some cb → h.st.tracetick = (c : Int) → 1 ≤ c →
      (c : Int) ≤ LONG_MAX I.LONG_BITS → c ≤ evs.length →
      run I h evs =
        (List.replicate (c - 1) (some 0) ++
          some (callback_trampoline I
            { st := { h.st with tracetick := h.st.trace_inspect_interval }
              nevents := h.nevents + c
              fired := h.fired } cb).1 ::
          (run I (callback_trampoline I
            { st := { h.st with tracetick := h.st.trace_inspect_interval }
              nevents := h.nevents + c
              fired := h.fired } cb).2 (evs.drop c)).1,
         (run I (callback_trampoline I
            { st := { h.st with tracetick := h.st.trace_inspect_interval }
              nevents := h.nevents + c
              fired := h.fired } cb).2 (evs.drop c)).2) := by
  induction evs with
  | nil =>
    intro h c _ _ hc _ hlen
    simp only [List.length_nil] at hlen
    omega
  | cons ev evs ih =>
    intro h c hh ht hc hcmax hlen
    simp only [List.length_cons] at hlen
    simp only [run, trace_event, hh]
    by_cases h1 : c = 1
    · subst h1
      rw [trace_trampoline_fire I _ _ _ _ _ (by simpa using ht)]
      simp [hh]
    · obtain ⟨d, rfl⟩ : ∃ d, c = d + 1 := ⟨c - 1, by omega⟩
      rw [trace_trampoline_countdown I _ _ _ _ _ (by simp only; omega) (by simp only; omega)]
      simp only
      rw [ih _ d (by simpa using hh) (by simp only; omega) (by omega) (by omega) (by omega)]
      have e1 : h.nevents + 1 + d = h.nevents + (d + 1) := by omega
      have e2 : d + 1 - 1 = (d - 1) + 1 := by omega
      simp only [List.drop_succ_cons, e1, e2, List.replicate_succ, List.cons_append, hh,
        add_tsub_cancel_right]

/-- A failing callback invocation: the trampoline reports -1 and leaves the hook
uninstalled, whatever the callback did to the module before raising. -/
theorem callback_trampoline_raises (I : Interp) (h : Host) (cb : PyObj)
    (hr : (I.call cb h.fired.length).raises = true) :
    (callback_trampoline I h cb).1 = -1 ∧
    (callback_trampoline I h cb).2.st.hook = none ∧
    (callback_trampoline I h cb).2.fired = h.fired ++ [(h.nevents, cb)] ∧
    (callback_trampoline I h cb).2.nevents = h.nevents := by
  unfold callback_trampoline
  simp [hr, PyEval_SetTrace]

/-- C1: after `set_interval(N)` (N positive, a C long) and `start(cb)`, both of which succeed,
and with a callback that always returns normally without calling the module, `k` trace events
all return 0 and invoke the callback exactly `k / N` times, on events `N, 2N, 3N, ...`. -/
theorem C1_fires_every_N_steps (I : Interp) (s : State) (cb : PyObj) (N : Nat)
    (evs : List Event) (hN : 1 ≤ N) (hmax : (N : Int) ≤ LONG_MAX I.LONG_BITS)
    (hq : I.quiet cb) :
    (crappy_multitasking__set_interval I.LONG_BITS s [.int N]).1 = .ok .none ∧
    (crappy_multitasking__start
      (crappy_multitasking__set_interval I.LONG_BITS s [.int N]).2 [cb]).1 = .ok .none ∧
    (run I (session I s N cb) evs).1 = List.replicate evs.length (some 0) ∧
    (run I (session I s N cb) evs).2.fired
      = (List.range (evs.length / N)).map (fun i => ((i + 1) * N, cb)) ∧
    (run I (session I s N cb) evs).2.fired.length = evs.length / N := by
  have hN1 : (1 : Int) ≤ (N : Int) := by exact_mod_cast hN
  have hrun := run_quiet I cb hq N hN hmax evs ⟨⟨N, N, some cb⟩, 0, []⟩ N rfl rfl rfl hN hmax
  rw [session_eq I s N cb hN1 hmax, hrun, set_interval_ok I s N hN1 hmax,
    start_ok _ _ (by simpa using hN1), firings_self N _ hN]
  refine ⟨rfl, rfl, rfl, ?_, ?_⟩
  · simp only [List.nil_append, zero_add]
    apply List.map_congr_left
    intro i _
    simp only [Prod.mk.injEq, and_true]
    ring
  · simp

/-- C1 at N = 3 and nine events: three firings, on events 3, 6 and 9. -/
theorem C1_fires_every_N_steps_witness :
    (1 ≤ 3 ∧ ((3 : Nat) : Int) ≤ LONG_MAX I64.LONG_BITS ∧ I64.quiet (.obj 7)) ∧
    (run I64 (session I64 State.init (3 : Nat) (.obj 7)) (List.replicate 9 ev0)).1
      = List.replicate 9 (some 0) ∧
    (run I64 (session I64 State.init (3 : Nat) (.obj 7)) (List.replicate 9 ev0)).2.fired
      = [(3, .obj 7), (6, .obj 7), (9, .obj 7)] := by
  have h := C1_fires_every_N_steps I64 State.init (.obj 7) 3 (List.replicate 9 ev0)
    (by decide) (by decide) (fun _ => rfl)
  refine ⟨⟨by decide, by decide, fun _ => rfl⟩, ?_, ?_⟩
  · simpa using h.2.2.1
  · simpa [List.range_succ] using h.2.2.2.1

/-- A firing that leaves the hook uninstalled ends the session: from an Active state whose
countdown stands at `c`, the first `c - 1` events return 0, event `c` invokes the callback
and returns the trampoline's result `v`, and the events after it reach no tracer. -/
theorem run_fire_then_inactive (I : Interp) (cb : PyObj) (evs : List Event) (h : Host)
    (c : Nat) (v : Int) (hh : h.st.hook = some cb) (ht : h.st.tracetick = (c : Int))
    (hc : 1 ≤ c) (hcmax : (c : Int) ≤ LONG_MAX I.LONG_BITS)
    (hv : (callback_trampoline I
            { st := { h.st with tracetick := h.st.trace_inspect_interval }
              nevents := h.nevents + c
              fired := h.fired } cb).1 = v)
    (hk : (callback_trampoline I
            { st := { h.st with tracetick := h.st.trace_inspect_interval }
              nevents := h.nevents + c
              fired := h.fired } cb).2.st.hook = none)
    (hf : (callback_trampoline I
            { st := { h.st with tracetick := h.st.trace_inspect_interval }
              nevents := h.nevents + c
              fired := h.fired } cb).2.fired = h.fired ++ [(h.nevents + c, cb)]) :
    (run I h evs).2.fired
      = h.fired ++ (if c ≤ evs.length then [(h.nevents + c, cb)] else []) ∧
    (c ≤ evs.length →
      (run I h evs).1
        = List.replicate (c - 1) (some 0) ++ some v :: List.replicate (evs.length - c) none ∧
      (run I h evs).2.st.hook = none) := by
  by_cases hlen : c ≤ evs.length
  · rw [if_pos hlen, run_first_fire I cb evs h c hh ht hc hcmax hlen]
    simp only
    rw [run_inactive I _ _ hk, hv]
    simp [hf, hk]
  · rw [if_neg hlen, run_countdown I cb evs h c hh ht hcmax (by omega)]
    simp
    omega

/-- C2: whenever the tracer fires a callback and that invocation raises (on its first or on
any later invocation), the tracer call returns -1, the trace hook is uninstalled (Inactive),
and no number of further events invokes any callback again. From any Active state whose
countdown stands at `c`, if the coming invocation raises, the callback is invoked once more,
on event `c`, and never after. In particular, in a session started after `set_interval(N)`
a callback that raises on its first invocation is invoked exactly once, on event `N`. -/
theorem C2_failing_callback_uninstalls (I : Interp) (h : Host) (cb : PyObj) (frame : Nat)
    (what : Int) (arg : PyObj) (c : Nat) (s : State) (N : Nat) (evs : List Event) :
    (wrapLong I.LONG_BITS (h.st.tracetick - 1) = 0 →
      (I.call cb h.fired.length).raises = true →
      (trace_trampoline I h cb frame what arg).1 = -1 ∧
      (trace_trampoline I h cb frame what arg).2.st.hook = none ∧
      (trace_trampoline I h cb frame what arg).2.st.active = false ∧
      (trace_trampoline I h cb frame what arg).2.fired = h.fired ++ [(h.nevents, cb)] ∧
      ∀ more : List Event,
        (run I (trace_trampoline I h cb frame what arg).2 more).1
           = List.replicate more.length none ∧
        (run I (trace_trampoline I h cb frame what arg).2 more).2.fired
           = h.fired ++ [(h.nevents, cb)]) ∧
    (h.st.hook = some cb → h.st.tracetick = (c : Int) → 1 ≤ c →
      (c : Int) ≤ LONG_MAX I.LONG_BITS → (I.call cb h.fired.length).raises = true →
      (run I h evs).2.fired
        = h.fired ++ (if c ≤ evs.length then [(h.nevents + c, cb)] else []) ∧
      (c ≤ evs.length →
        (run I h evs).1
          = List.replicate (c - 1) (some 0) ++ some (-1) ::
              List.replicate (evs.length - c) none ∧
        (run I h evs).2.st.hook = none)) ∧
    (1 ≤ N → (N : Int) ≤ LONG_MAX I.LONG_BITS → (I.call cb 0).raises = true →
      (run I (session I s N cb) evs).2.fired = (if N ≤ evs.length then [(N, cb)] else []) ∧
      (N ≤ evs.length →
        (run I (session I s N cb) evs).1
          = List.replicate (N - 1) (some 0) ++ some (-1) ::
              List.replicate (evs.length - N) none ∧
        (run I (session I s N cb) evs).2.st.hook = none)) := by
  refine ⟨?_, ?_, ?_⟩
  · intro hz hr
    have hstep : trace_trampoline I h cb frame what arg
        = callback_trampoline I
            { h with st := { h.st with tracetick := h.st.trace_inspect_interval } } cb := by
      unfold trace_trampoline
      simp only
      rw [if_pos hz]
    rw [hstep]
    obtain ⟨r1, r2, r3, _⟩ := callback_trampoline_raises I
      { h with st := { h.st with tracetick := h.st.trace_inspect_interval } } cb hr
    refine ⟨r1, r2, by simp [State.active, r2], r3, ?_⟩
    intro more
    rw [run_inactive I more _ r2]
    exact ⟨rfl, r3⟩
  · intro hh ht hc hcmax hr
    obtain ⟨r1, r2, r3, _⟩ := callback_trampoline_raises I
      { st := { h.st with tracetick := h.st.trace_inspect_interval }
        nevents := h.nevents + c
        fired := h.fired } cb hr
    exact run_fire_then_inactive I cb evs h c (-1) hh ht hc hcmax r1 r2 r3
  · intro hN hmax hr0
    have hN1 : (1 : Int) ≤ (N : Int) := by exact_mod_cast hN
    rw [session_eq I s N cb hN1 hmax]
    obtain ⟨r1, r2, r3, _⟩ := callback_trampoline_raises I
      { st := ⟨N, N, some cb⟩, nevents := 0 + N, fired := [] } cb hr0
    have key := run_fire_then_inactive I cb evs ⟨⟨N, N, some cb⟩, 0, []⟩ N (-1) rfl rfl hN
      hmax r1 r2 r3
    simpa using key

/-- C2 on a callback that raises at once (N = 2, five events: one invocation, on event 2)
and on a callback that returns normally once and raises on its second invocation: three
events into a session with N = 2 the host is Active with one invocation logged; the second
invocation, on event 4, returns -1 and is the last. -/
theorem C2_failing_callback_uninstalls_witness :
    (wrapLong I64late.LONG_BITS
        ((⟨⟨2, 1, some (.obj 7)⟩, 4, [(2, .obj 7)]⟩ : Host).st.tracetick - 1) = 0 ∧
      (I64late.call (.obj 7) 1).raises = true ∧
      (run I64late (session I64late State.init 2 (.obj 7)) (List.replicate 3 ev0)).2
        = ⟨⟨2, 1, some (.obj 7)⟩, 3, [(2, .obj 7)]⟩ ∧
      (I64raise.call (.obj 7) 0).raises = true) ∧
    (trace_trampoline I64late ⟨⟨2, 1, some (.obj 7)⟩, 4, [(2, .obj 7)]⟩ (.obj 7) 0 0
      .none).1 = -1 ∧
    (trace_trampoline I64late ⟨⟨2, 1, some (.obj 7)⟩, 4, [(2, .obj 7)]⟩ (.obj 7) 0 0
      .none).2.st.hook = none ∧
    (run I64late ⟨⟨2, 1, some (.obj 7)⟩, 3, [(2, .obj 7)]⟩ (List.replicate 4 ev0)).2.fired
      = [(2, .obj 7), (4, .obj 7)] ∧
    (run I64raise (session I64raise State.init (2 : Nat) (.obj 7))
      (List.replicate 5 ev0)).2.fired = [(2, .obj 7)] := by
  have hz : wrapLong I64late.LONG_BITS
      ((⟨⟨2, 1, some (.obj 7)⟩, 4, [(2, .obj 7)]⟩ : Host).st.tracetick - 1) = 0 := by decide
  have a := (C2_failing_callback_uninstalls I64late ⟨⟨2, 1, some (.obj 7)⟩, 4, [(2, .obj 7)]⟩
    (.obj 7) 0 0 .none 1 State.init 2 []).1 hz rfl
  have b := (C2_failing_callback_uninstalls I64late ⟨⟨2, 1, some (.obj 7)⟩, 3, [(2, .obj 7)]⟩
    (.obj 7) 0 0 .none 1 State.init 2 (List.replicate 4 ev0)).2.1 rfl rfl (by decide)
    (by decide) rfl
  have c := (C2_failing_callback_uninstalls I64raise (Host.ofState State.init) (.obj 7) 0 0
    .none 1 State.init 2 (List.replicate 5 ev0)).2.2 (by decide) (by decide) rfl
  refine ⟨⟨hz, rfl, by set_option maxRecDepth 100000 in decide, rfl⟩, a.1, a.2.1, ?_, ?_⟩
  · simpa using b.1
  · simpa using c.1

/-- C3: for every positive `N` representable as a C long and every prior state,
`set_interval(N)` succeeds and an immediately following `get_interval()` returns `N`. -/
theorem C3_set_then_get (I : Interp) (s : State) (N : Int) (args : List PyObj) (hN : 0 < N)
    (hmax : N ≤ LONG_MAX I.LONG_BITS) :
    (crappy_multitasking__set_interval I.LONG_BITS s [.int N]).1 = .ok .none ∧
    (crappy_multitasking__get_interval
      (crappy_multitasking__set_interval I.LONG_BITS s [.int N]).2 args).1 = .ok (.int N) := by
  rw [set_interval_ok I s N (by omega) hmax]
  exact ⟨rfl, rfl⟩

/-- C3 at N = 5 from the initial state. -/
theorem C3_set_then_get_witness :
    ((0 : Int) < 5 ∧ (5 : Int) ≤ LONG_MAX I64.LONG_BITS) ∧
    (crappy_multitasking__get_interval
      (crappy_multitasking__set_interval I64.LONG_BITS State.init [.int 5]).2 []).1
        = .ok (.int 5) :=
  ⟨⟨by decide, by decide⟩,
    (C3_set_then_get I64 State.init 5 [] (by decide) (by decide)).2⟩

theorem set_interval_nonpos (I : Interp) (s : State) (n : Int) (hn : n ≤ 0)
    (hmin : LONG_MIN I.LONG_BITS ≤ n) :
    crappy_multitasking__set_interval I.LONG_BITS s [.int n]
      = (.error set_interval_value_error, s) := by
  have := LONG_MAX_pos I
  unfold crappy_multitasking__set_interval PyArg_ParseTuple_l
  simp only [PyObj.asIndex]
  rw [if_pos ⟨hmin, by omega⟩]
  simp only
  rw [if_pos hn]
  rfl

theorem set_interval_below_long (w : Nat) (s : State) (n : Int) (hmin : n < LONG_MIN w) :
    crappy_multitasking__set_interval w s [.int n] = (.error .OverflowError, s) := by
  unfold crappy_multitasking__set_interval PyArg_ParseTuple_l
  simp only [PyObj.asIndex]
  rw [if_neg (by omega)]

/-- Every way `set_interval` can end: an error with the state untouched, or success with
only the interval replaced by a positive value that the single argument converts to. -/
theorem set_interval_cases (w : Nat) (s : State) (args : List PyObj) :
    ((crappy_multitasking__set_interval w s args).1 = .error .TypeError ∧
       (crappy_multitasking__set_interval w s args).2 = s) ∨
    ((crappy_multitasking__set_interval w s args).1 = .error .OverflowError ∧
       (crappy_multitasking__set_interval w s args).2 = s) ∨
    (∃ n, (∃ o, args = [o] ∧ o.asIndex = some n) ∧ n ≤ 0 ∧ LONG_MIN w ≤ n ∧
       (crappy_multitasking__set_interval w s args).1 = .error set_interval_value_error ∧
       (crappy_multitasking__set_interval w s args).2 = s) ∨
    (∃ n, (∃ o, args = [o] ∧ o.asIndex = some n) ∧ 0 < n ∧ n ≤ LONG_MAX w ∧
       (crappy_multitasking__set_interval w s args).1 = .ok .none ∧
       (crappy_multitasking__set_interval w s args).2
          = { s with trace_inspect_interval := n }) := by
  rcases args with _ | ⟨o, _ | ⟨o2, rest⟩⟩
  · exact Or.inl ⟨rfl, rfl⟩
  · cases ho : o.asIndex with
    | none =>
      refine Or.inl ⟨?_, ?_⟩ <;>
        simp [crappy_multitasking__set_interval, PyArg_ParseTuple_l, ho]
    | some v =>
      by_cases hr : LONG_MIN w ≤ v ∧ v ≤ LONG_MAX w
      · by_cases hv : v ≤ 0
        · refine Or.inr (Or.inr (Or.inl ⟨v, ⟨o, rfl, ho⟩, hv, hr.1, ?_, ?_⟩)) <;>
            simp [crappy_multitasking__set_interval, PyArg_ParseTuple_l, ho, hr, hv,
              set_interval_value_error]
        · refine Or.inr (Or.inr (Or.inr ⟨v, ⟨o, rfl, ho⟩, by omega, hr.2, ?_, ?_⟩)) <;>
            simp [crappy_multitasking__set_interval, PyArg_ParseTuple_l, ho, hr, hv]
      · refine Or.inr (Or.inl ⟨?_, ?_⟩) <;>
          simp [crappy_multitasking__set_interval, PyArg_ParseTuple_l, ho, hr]
  · exact Or.inl ⟨rfl, rfl⟩

/-- An object with `__index__` is treated by `set_interval` as the integer it converts to. -/
theorem set_interval_asIndex (w : Nat) (s : State) (o : PyObj) (n : Int)
    (ho : o.asIndex = some n) :
    crappy_multitasking__set_interval w s [o]
      = crappy_multitasking__set_interval w s [.int n] := by
  unfold crappy_multitasking__set_interval PyArg_ParseTuple_l
  simp only [ho]
  rfl

/-- C4 as stated fails below `LONG_MIN`: with a 64-bit `long`, `set_interval(-2^63 - 1)` does
not raise `ValueError`; argument parsing already fails with `OverflowError`. -/
theorem C4_counterexample :
    (-9223372036854775809 : Int) ≤ 0 ∧
    (crappy_multitasking__set_interval 64 State.init [.int (-9223372036854775809)]).1
      = .error .OverflowError ∧
    (crappy_multitasking__set_interval 64 State.init [.int (-9223372036854775809)]).1
      ≠ .error set_interval_value_error := by
  have h := set_interval_below_long 64 State.init (-9223372036854775809) (by decide)
  rw [h]
  exact ⟨by decide, rfl, by simp [set_interval_value_error]⟩

/-- C4 (amended): for every `n <= 0` that fits a C long and every prior state,
`set_interval(n)` fails with the module's `ValueError` and leaves the state, hence the value
`get_interval()` returns, unchanged; conversely, for every integer `m`, `set_interval(m)`
fails with a `ValueError` only if `m <= 0`. -/
theorem C4_nonpositive_rejected (I : Interp) (s : State) (n m : Int) (ga : List PyObj)
    (msg : String) (hn : n ≤ 0) (hmin : LONG_MIN I.LONG_BITS ≤ n) :
    (crappy_multitasking__set_interval I.LONG_BITS s [.int n]).1
      = .error (.ValueError "Interval should be nonnegative!") ∧
    (crappy_multitasking__set_interval I.LONG_BITS s [.int n]).2 = s ∧
    (crappy_multitasking__get_interval
      (crappy_multitasking__set_interval I.LONG_BITS s [.int n]).2 ga).1
        = (crappy_multitasking__get_interval s ga).1 ∧
    ((crappy_multitasking__set_interval I.LONG_BITS s [.int m]).1 = .error (.ValueError msg) →
      m ≤ 0) := by
  rw [set_interval_nonpos I s n hn hmin]
  refine ⟨rfl, rfl, rfl, ?_⟩
  intro he
  rcases set_interval_cases I.LONG_BITS s [.int m] with h | h | ⟨k, ⟨o, ho, hk⟩, hk0, _, _⟩ |
    ⟨k, _, _, _, h, _⟩
  · rw [h.1] at he; cases he
  · rw [h.1] at he; cases he
  · simp only [List.cons.injEq, and_true] at ho
    subst ho
    simp only [PyObj.asIndex, Option.some.injEq] at hk
    omega
  · rw [h] at he; cases he

/-- C4 (amended) at n = -5 after `set_interval(7)`, with the converse read at m = 0. -/
theorem C4_nonpositive_rejected_witness :
    ((-5 : Int) ≤ 0 ∧ LONG_MIN I64.LONG_BITS ≤ -5 ∧
      (crappy_multitasking__set_interval I64.LONG_BITS ⟨7, -1, none⟩ [.int 0]).1
        = .error (.ValueError "Interval should be nonnegative!")) ∧
    (crappy_multitasking__set_interval I64.LONG_BITS ⟨7, -1, none⟩ [.int (-5)]).1
      = .error (.ValueError "Interval should be nonnegative!") ∧
    (crappy_multitasking__set_interval I64.LONG_BITS ⟨7, -1, none⟩ [.int (-5)]).2
      = ⟨7, -1, none⟩ ∧
    (0 : Int) ≤ 0 :=
  ⟨⟨by decide, by decide, by set_option maxRecDepth 100000 in decide⟩,
    (C4_nonpositive_rejected I64 ⟨7, -1, none⟩ (-5) 0 [] "Interval should be nonnegative!"
      (by decide) (by decide)).1,
    (C4_nonpositive_rejected I64 ⟨7, -1, none⟩ (-5) 0 [] "Interval should be nonnegative!"
      (by decide) (by decide)).2.1,
    (C4_nonpositive_rejected I64 ⟨7, -1, none⟩ (-5) 0 [] "Interval should be nonnegative!"
      (by decide) (by decide)).2.2.2 (by set_option maxRecDepth 100000 in decide)⟩

theorem start_unconfigured (s : State) (args : List PyObj)
    (hi : s.trace_inspect_interval ≤ 0) :
    crappy_multitasking__start s args = (.error start_state_error, s) := by
  unfold crappy_multitasking__start
  rw [if_pos hi]
  rfl

/-- One module call either keeps the interval or is a successful `set_interval` storing a
positive one. -/
theorem exec_interval (w : Nat) (s : State) (c : ModCall) :
    ((c.exec w s).2.trace_inspect_interval = s.trace_inspect_interval ∧
      (c.isSetInterval && (c.exec w s).1.isOk) = false) ∨
    (c.isSetInterval = true ∧ (c.exec w s).1.isOk = true ∧
      0 < (c.exec w s).2.trace_inspect_interval) := by
  cases c with
  | start args =>
    left
    refine ⟨?_, rfl⟩
    simp only [ModCall.exec, crappy_multitasking__start]
    split
    · rfl
    · cases PyArg_ParseTuple_O args <;> rfl
  | end_ args => exact Or.inl ⟨rfl, rfl⟩
  | get_interval args => exact Or.inl ⟨rfl, rfl⟩
  | set_interval args =>
    simp only [ModCall.exec, ModCall.isSetInterval, Bool.true_and]
    rcases set_interval_cases w s args with h | h | ⟨m, _, _, _, h1, h2⟩ | ⟨m, _, hm, _, h1, h2⟩
    · exact Or.inl ⟨by rw [h.2], by rw [h.1]; rfl⟩
    · exact Or.inl ⟨by rw [h.2], by rw [h.1]; rfl⟩
    · exact Or.inl ⟨by rw [h2], by rw [h1]; rfl⟩
    · exact Or.inr ⟨trivial, by rw [h1]; rfl, by rw [h2]; exact hm⟩

/-- After a sequence of module calls the interval is positive exactly when it was positive
before or some `set_interval` of the sequence succeeded. -/
theorem exec_calls_interval_pos (w : Nat) (calls : List ModCall) :
    ∀ s : State, 0 < (exec_calls w s calls).2.trace_inspect_interval ↔
      (0 < s.trace_inspect_interval ∨
        set_interval_succeeded calls (exec_calls w s calls).1 = true) := by
  induction calls with
  | nil =>
    intro s
    simp [exec_calls, set_interval_succeeded]
  | cons c cs ih =>
    intro s
    simp only [exec_calls, set_interval_succeeded, List.zip_cons_cons, List.any_cons,
      Bool.or_eq_true]
    rw [ih (c.exec w s).2]
    simp only [set_interval_succeeded]
    rcases exec_interval w s c with ⟨h1, h2⟩ | ⟨h1, h2, h3⟩
    · rw [h1, h2]
      simp
    · simp only [h1, h2, h3, Bool.and_self, true_or, or_true]

/-- C5: after any sequence of module calls from the initial state, `start(cb)` with one
argument fails with the state error exactly when no `set_interval` of the sequence
succeeded, which is exactly when the stored interval is not positive; otherwise it succeeds.
On the initial state it fails. -/
theorem C5_start_needs_configured_interval (I : Interp) (calls : List ModCall) (cb : PyObj) :
    ((crappy_multitasking__start (exec_calls I.LONG_BITS State.init calls).2 [cb]).1
        = .error (.ValueError "You must call \x27set_interval\x27 before calling \x27start\x27.")
      ↔ set_interval_succeeded calls (exec_calls I.LONG_BITS State.init calls).1 = false) ∧
    ((crappy_multitasking__start (exec_calls I.LONG_BITS State.init calls).2 [cb]).1
        = .error (.ValueError "You must call \x27set_interval\x27 before calling \x27start\x27.")
      ↔ (exec_calls I.LONG_BITS State.init calls).2.trace_inspect_interval ≤ 0) ∧
    (set_interval_succeeded calls (exec_calls I.LONG_BITS State.init calls).1 = true →
      (crappy_multitasking__start (exec_calls I.LONG_BITS State.init calls).2 [cb]).1
        = .ok .none) ∧
    (crappy_multitasking__start State.init [cb]).1
        = .error (.ValueError "You must call \x27set_interval\x27 before calling \x27start\x27.")
      := by
  have key := exec_calls_interval_pos I.LONG_BITS calls State.init
  have h0 : ¬ (0 < State.init.trace_inspect_interval) := by decide
  simp only [h0, false_or] at key
  have hstart : (crappy_multitasking__start (exec_calls I.LONG_BITS State.init calls).2 [cb]).1
        = .error start_state_error
      ↔ (exec_calls I.LONG_BITS State.init calls).2.trace_inspect_interval ≤ 0 := by
    constructor
    · intro he
      by_contra hpos
      rw [start_ok _ _ (by omega)] at he
      cases he
    · intro hle
      rw [start_unconfigured _ _ hle]
  refine ⟨?_, hstart, ?_, rfl⟩
  · rw [show PyErr.ValueError _ = start_state_error from rfl, hstart, ← not_lt, key]
    simp
  · intro hs
    rw [start_ok _ _ (by have := key.mpr hs; omega)]

/-- C5 on a sequence with a failed and then a successful `set_interval`. -/
theorem C5_start_needs_configured_interval_witness :
    set_interval_succeeded [.set_interval [.int 0], .set_interval [.int 3]]
      (exec_calls I64.LONG_BITS State.init
        [.set_interval [.int 0], .set_interval [.int 3]]).1 = true ∧
    (crappy_multitasking__start (exec_calls I64.LONG_BITS State.init
        [.set_interval [.int 0], .set_interval [.int 3]]).2 [.obj 7]).1 = .ok .none :=
  ⟨by decide,
    (C5_start_needs_configured_interval I64
      [.set_interval [.int 0], .set_interval [.int 3]] (.obj 7)).2.2.1 (by decide)⟩

/-- C6: `end` always returns `None`, runs no callback and delivers no event; in an Inactive
state it leaves the whole state unchanged; and a second `end` right after a first returns the
same result and the same state as the first. -/
theorem C6_end_idempotent (I : Interp) (s : State) (h : Host) (args args2 : List PyObj) :
    (crappy_multitasking__end s args).1 = .ok .none ∧
    (crappy_multitasking__end s args).2.hook = none ∧
    (Host.step I h (.call (.end_ args))).fired = h.fired ∧
    (Host.step I h (.call (.end_ args))).nevents = h.nevents ∧
    (s.hook = none → (crappy_multitasking__end s args).2 = s) ∧
    (State.init.hook = none ∧ (crappy_multitasking__end State.init args).2 = State.init) ∧
    crappy_multitasking__end (crappy_multitasking__end s args).2 args2
      = crappy_multitasking__end s args := by
  refine ⟨rfl, rfl, rfl, rfl, ?_, ⟨rfl, rfl⟩, rfl⟩
  intro hs
  cases s with
  | mk i t hk =>
    simp only at hs
    subst hs
    rfl

/-- C6 on an Inactive state with a configured interval. -/
theorem C6_end_idempotent_witness :
    (⟨3, 2, none⟩ : State).hook = none ∧
    (crappy_multitasking__end ⟨3, 2, none⟩ []).2 = ⟨3, 2, none⟩ :=
  ⟨rfl, (C6_end_idempotent I64 ⟨3, 2, none⟩ (Host.ofState State.init) [] []).2.2.2.2.1 rfl⟩

theorem exec_calls_append (w : Nat) (a b : List ModCall) :
    ∀ s : State, (exec_calls w s (a ++ b)).2 = (exec_calls w (exec_calls w s a).2 b).2 := by
  induction a with
  | nil => intro s; rfl
  | cons c cs ih =>
    intro s
    simp only [List.cons_append, exec_calls]
    exact ih _

/-- A callback invocation that returns normally and whose last module call is `end`: the
trampoline reports 0 and leaves the hook uninstalled. -/
theorem callback_trampoline_ends (I : Interp) (h : Host) (cb : PyObj) (pre : List ModCall)
    (a : List PyObj) (hc : I.call cb h.fired.length = ⟨pre ++ [.end_ a], false⟩) :
    (callback_trampoline I h cb).1 = 0 ∧
    (callback_trampoline I h cb).2.st.hook = none ∧
    (callback_trampoline I h cb).2.fired = h.fired ++ [(h.nevents, cb)] ∧
    (callback_trampoline I h cb).2.nevents = h.nevents := by
  unfold callback_trampoline
  simp [hc, exec_calls_append, exec_calls, ModCall.exec, crappy_multitasking__end,
    PyEval_SetTrace]

/-- C7: whenever the tracer fires a callback and that invocation (the first or any later
one) calls `end()` as its last call into the module and returns normally, the tracer call
returns 0 and the hook is uninstalled, so no number of further events invokes a callback
again. From any Active state whose countdown stands at `c`, if the coming invocation does
so, the callback is invoked once more, on event `c`, and never after. In particular, in a
session started after `set_interval(N)` a callback that calls `end()` on its first
invocation runs exactly once, on event `N`, and not on event `2N` or later. -/
theorem C7_end_inside_callback (I : Interp) (h : Host) (cb : PyObj) (frame : Nat)
    (what : Int) (arg : PyObj) (pre pre0 : List ModCall) (a a0 : List PyObj) (c : Nat)
    (s : State) (N : Nat) (evs : List Event) :
    (wrapLong I.LONG_BITS (h.st.tracetick - 1) = 0 →
      I.call cb h.fired.length = ⟨pre ++ [.end_ a], false⟩ →
      (trace_trampoline I h cb frame what arg).1 = 0 ∧
      (trace_trampoline I h cb frame what arg).2.st.hook = none ∧
      (trace_trampoline I h cb frame what arg).2.fired = h.fired ++ [(h.nevents, cb)] ∧
      ∀ more : List Event,
        (run I (trace_trampoline I h cb frame what arg).2 more).1
           = List.replicate more.length none ∧
        (run I (trace_trampoline I h cb frame what arg).2 more).2.fired
           = h.fired ++ [(h.nevents, cb)]) ∧
    (h.st.hook = some cb → h.st.tracetick = (c : Int) → 1 ≤ c →
      (c : Int) ≤ LONG_MAX I.LONG_BITS →
      I.call cb h.fired.length = ⟨pre ++ [.end_ a], false⟩ →
      (run I h evs).2.fired
        = h.fired ++ (if c ≤ evs.length then [(h.nevents + c, cb)] else []) ∧
      (c ≤ evs.length →
        (run I h evs).1
          = List.replicate (c - 1) (some 0) ++ some 0 ::
              List.replicate (evs.length - c) none ∧
        (run I h evs).2.st.hook = none)) ∧
    (1 ≤ N → (N : Int) ≤ LONG_MAX I.LONG_BITS →
      I.call cb 0 = ⟨pre0 ++ [.end_ a0], false⟩ →
      (run I (session I s N cb) evs).2.fired = (if N ≤ evs.length then [(N, cb)] else []) ∧
      (N ≤ evs.length →
        (run I (session I s N cb) evs).1
          = List.replicate (N - 1) (some 0) ++ some 0 ::
              List.replicate (evs.length - N) none ∧
        (run I (session I s N cb) evs).2.st.hook = none)) := by
  refine ⟨?_, ?_, ?_⟩
  · intro hz hc
    have hstep : trace_trampoline I h cb frame what arg
        = callback_trampoline I
            { h with st := { h.st with tracetick := h.st.trace_inspect_interval } } cb := by
      unfold trace_trampoline
      simp only
      rw [if_pos hz]
    rw [hstep]
    obtain ⟨r1, r2, r3, _⟩ := callback_trampoline_ends I
      { h with st := { h.st with tracetick := h.st.trace_inspect_interval } } cb pre a hc
    refine ⟨r1, r2, r3, ?_⟩
    intro more
    rw [run_inactive I more _ r2]
    exact ⟨rfl, r3⟩
  · intro hh ht hc hcmax hcall
    obtain ⟨r1, r2, r3, _⟩ := callback_trampoline_ends I
      { st := { h.st with tracetick := h.st.trace_inspect_interval }
        nevents := h.nevents + c
        fired := h.fired } cb pre a hcall
    exact run_fire_then_inactive I cb evs h c 0 hh ht hc hcmax r1 r2 r3
  · intro hN hmax hc0
    have hN1 : (1 : Int) ≤ (N : Int) := by exact_mod_cast hN
    rw [session_eq I s N cb hN1 hmax]
    obtain ⟨r1, r2, r3, _⟩ := callback_trampoline_ends I
      { st := ⟨N, N, some cb⟩, nevents := 0 + N, fired := [] } cb pre0 a0 hc0
    have key := run_fire_then_inactive I cb evs ⟨⟨N, N, some cb⟩, 0, []⟩ N 0 rfl rfl hN
      hmax r1 r2 r3
    simpa using key

/-- C7 on a callback that calls `end()` at once (N = 3, seven events: one run, on event 3,
none on event 6) and on a callback that returns normally once and calls `end()` on its
second invocation: four events into a session with N = 3 the host is Active with one
invocation logged; the second invocation, on event 6, returns 0 and is the last. -/
theorem C7_end_inside_callback_witness :
    (wrapLong I64endLater.LONG_BITS
        ((⟨⟨3, 1, some (.obj 7)⟩, 6, [(3, .obj 7)]⟩ : Host).st.tracetick - 1) = 0 ∧
      I64endLater.call (.obj 7) 1 = ⟨[] ++ [.end_ []], false⟩ ∧
      (run I64endLater (session I64endLater State.init 3 (.obj 7)) (List.replicate 4 ev0)).2
        = ⟨⟨3, 2, some (.obj 7)⟩, 4, [(3, .obj 7)]⟩ ∧
      I64end.call (.obj 7) 0 = ⟨[] ++ [.end_ []], false⟩) ∧
    (trace_trampoline I64endLater ⟨⟨3, 1, some (.obj 7)⟩, 6, [(3, .obj 7)]⟩ (.obj 7) 0 0
      .none).1 = 0 ∧
    (trace_trampoline I64endLater ⟨⟨3, 1, some (.obj 7)⟩, 6, [(3, .obj 7)]⟩ (.obj 7) 0 0
      .none).2.st.hook = none ∧
    (run I64endLater ⟨⟨3, 2, some (.obj 7)⟩, 4, [(3, .obj 7)]⟩ (List.replicate 6 ev0)).2.fired
      = [(3, .obj 7), (6, .obj 7)] ∧
    (run I64end (session I64end State.init (3 : Nat) (.obj 7))
      (List.replicate 7 ev0)).2.fired = [(3, .obj 7)] := by
  have hz : wrapLong I64endLater.LONG_BITS
      ((⟨⟨3, 1, some (.obj 7)⟩, 6, [(3, .obj 7)]⟩ : Host).st.tracetick - 1) = 0 := by decide
  have a := (C7_end_inside_callback I64endLater ⟨⟨3, 1, some (.obj 7)⟩, 6, [(3, .obj 7)]⟩
    (.obj 7) 0 0 .none [] [] [] [] 1 State.init 3 []).1 hz rfl
  have b := (C7_end_inside_callback I64endLater ⟨⟨3, 2, some (.obj 7)⟩, 4, [(3, .obj 7)]⟩
    (.obj 7) 0 0 .none [] [] [] [] 2 State.init 3 (List.replicate 6 ev0)).2.1 rfl rfl
    (by decide) (by decide) rfl
  have c := (C7_end_inside_callback I64end (Host.ofState State.init) (.obj 7) 0 0
    .none [] [] [] [] 1 State.init 3 (List.replicate 7 ev0)).2.2 (by decide) (by decide) rfl
  refine ⟨⟨hz, rfl, by set_option maxRecDepth 100000 in decide, rfl⟩, a.1, a.2.1, ?_, ?_⟩
  · simpa using b.1
  · simpa using c.1

theorem remaining_self (N j : Nat) : remaining N N j = N - j % N := by
  unfold remaining
  by_cases hj : j < N
  · rw [if_pos hj, Nat.mod_eq_of_lt hj]
  · rw [if_neg hj, ← Nat.mod_eq_sub_mod (by omega)]

theorem next_multiple (N j : Nat) (hN : 1 ≤ N) : j + (N - j % N) = (j / N + 1) * N := by
  have h1 := Nat.div_add_mod j N
  have h2 := Nat.mod_lt j (show 0 < N by omega)
  have h3 : (j / N + 1) * N = N * (j / N) + N := by ring
  rw [h3]
  generalize N * (j / N) = p at *
  omega

/-- C8 as stated fails: in a session started with interval 3, `set_interval(5)` issued
after the first event succeeds, and the callback then fires on events 3 and 8 of a
nine-event body, not on the original schedule 3, 6, 9. -/
theorem C8_counterexample :
    (crappy_multitasking__set_interval 64
      (run I64 (session I64 State.init 3 (.obj 7)) [ev0]).2.st [.int 5]).1 = .ok .none ∧
    (run I64 (Host.step I64 (run I64 (session I64 State.init 3 (.obj 7)) [ev0]).2
      (.call (.set_interval [.int 5]))) (List.replicate 8 ev0)).2.fired
        = [(3, .obj 7), (8, .obj 7)] ∧
    (run I64 (Host.step I64 (run I64 (session I64 State.init 3 (.obj 7)) [ev0]).2
      (.call (.set_interval [.int 5]))) (List.replicate 8 ev0)).2.fired
        ≠ [(3, .obj 7), (6, .obj 7), (9, .obj 7)] := by
  set_option maxRecDepth 100000 in decide

/-- C8 (amended): a successful `set_interval(M)` issued `j` events into a session started
with interval `N` leaves the countdown and the hook as they are, so the next firing still
comes on the original schedule, on event `(j / N + 1) * N`; the tracer reloads the countdown
from the stored interval at each firing, so from that firing on the running session fires
every `M` events, with no `start` in between; and a session begun by a later `start` fires
every `M` events from its beginning. The callbacks return normally and do not call the
module. -/
theorem C8_set_interval_mid_session (I : Interp) (s : State) (cb cb2 : PyObj) (N M : Nat)
    (evs1 evs2 evs3 : List Event) (hN : 1 ≤ N) (hNmax : (N : Int) ≤ LONG_MAX I.LONG_BITS)
    (hM : 1 ≤ M) (hMmax : (M : Int) ≤ LONG_MAX I.LONG_BITS) (hq : I.quiet cb)
    (hq2 : I.quiet cb2) :
    (crappy_multitasking__set_interval I.LONG_BITS
      (run I (session I s N cb) evs1).2.st [.int M]).1 = .ok .none ∧
    (Host.step I (run I (session I s N cb) evs1).2 (.call (.set_interval [.int M]))).st
      = { (run I (session I s N cb) evs1).2.st with trace_inspect_interval := M } ∧
    (run I (Host.step I (run I (session I s N cb) evs1).2 (.call (.set_interval [.int M])))
      evs2).1 = List.replicate evs2.length (some 0) ∧
    (run I (Host.step I (run I (session I s N cb) evs1).2 (.call (.set_interval [.int M])))
      evs2).2.fired
        = (List.range (evs1.length / N)).map (fun i => ((i + 1) * N, cb)) ++
          (List.range (firings (N - evs1.length % N) M evs2.length)).map
            (fun i => ((evs1.length / N + 1) * N + i * M, cb)) ∧
    (run I (Host.ofState (crappy_multitasking__start
      (Host.step I (run I (session I s N cb) evs1).2 (.call (.set_interval [.int M]))).st
      [cb2]).2) evs3).2.fired
        = (List.range (evs3.length / M)).map (fun i => ((i + 1) * M, cb2)) := by
  have hN1 : (1 : Int) ≤ (N : Int) := by exact_mod_cast hN
  have hM1 : (1 : Int) ≤ (M : Int) := by exact_mod_cast hM
  have h1 := run_quiet I cb hq N hN hNmax evs1 ⟨⟨N, N, some cb⟩, 0, []⟩ N rfl rfl rfl hN hNmax
  rw [session_eq I s N cb hN1 hNmax, h1]
  simp only [Host.step, ModCall.exec, set_interval_ok I _ M hM1 hMmax, firings_self N _ hN,
    remaining_self, List.nil_append, zero_add]
  have hrem : 1 ≤ N - evs1.length % N := by
    have := Nat.mod_lt evs1.length (show 0 < N by omega)
    omega
  have hremmax : ((N - evs1.length % N : Nat) : Int) ≤ LONG_MAX I.LONG_BITS := by
    have : ((N - evs1.length % N : Nat) : Int) ≤ (N : Int) := by
      exact_mod_cast Nat.sub_le _ _
    omega
  have h2 := run_quiet I cb hq M hM hMmax evs2
    ⟨⟨M, (N - evs1.length % N : Nat), some cb⟩, evs1.length,
      (List.range (evs1.length / N)).map (fun i => (N + i * N, cb))⟩
    (N - evs1.length % N) rfl rfl rfl hrem hremmax
  have h3 := run_quiet I cb2 hq2 M hM hMmax evs3 ⟨⟨M, M, some cb2⟩, 0, []⟩ M rfl rfl rfl hM
    hMmax
  rw [start_ok _ _ (by simpa using hM1)]
  simp only [Host.ofState]
  rw [h2, h3]
  simp only [firings_self M _ hM, List.nil_append, zero_add, List.append_cancel_right_eq,
    true_and]
  refine ⟨?_, ?_⟩
  · congr 1
    · apply List.map_congr_left
      intro i _
      simp only [Prod.mk.injEq, and_true]
      ring
    · apply List.map_congr_left
      intro i _
      simp only [Prod.mk.injEq, and_true]
      rw [next_multiple N _ hN]
  · apply List.map_congr_left
    intro i _
    simp only [Prod.mk.injEq, and_true]
    ring

/-- C8 (amended) at N = 3, M = 5, one event before the change and eight after it. -/
theorem C8_set_interval_mid_session_witness :
    (1 ≤ 3 ∧ ((3 : Nat) : Int) ≤ LONG_MAX I64.LONG_BITS ∧ 1 ≤ 5 ∧
      ((5 : Nat) : Int) ≤ LONG_MAX I64.LONG_BITS ∧ I64.quiet (.obj 7) ∧ I64.quiet (.obj 8)) ∧
    (run I64 (Host.step I64 (run I64 (session I64 State.init (3 : Nat) (.obj 7)) [ev0]).2
      (.call (.set_interval [.int (5 : Nat)]))) (List.replicate 8 ev0)).2.fired
        = (List.range (1 / 3)).map (fun i => ((i + 1) * 3, PyObj.obj 7)) ++
          (List.range (firings (3 - 1 % 3) 5 8)).map
            (fun i => ((1 / 3 + 1) * 3 + i * 5, PyObj.obj 7)) :=
  ⟨⟨by decide, by decide, by decide, by decide, fun _ => rfl, fun _ => rfl⟩,
    (C8_set_interval_mid_session I64 State.init (.obj 7) (.obj 8) 3 5 [ev0]
      (List.replicate 8 ev0) [] (by decide) (by decide) (by decide) (by decide)
      (fun _ => rfl) (fun _ => rfl)).2.2.2.1⟩

/-- A tracer call never shortens the list of callback invocations: it appends nothing or
one entry. -/
theorem trace_event_fired (I : Interp) (h : Host) (ev : Event) :
    ∃ l, (trace_event I h ev).2.fired = h.fired ++ l := by
  unfold trace_event
  cases hh : h.st.hook with
  | none => exact ⟨[], by simp⟩
  | some cb =>
    simp only [trace_trampoline]
    split
    · unfold callback_trampoline
      simp only
      split
      · exact ⟨[(h.nevents + 1, cb)], rfl⟩
      · exact ⟨[(h.nevents + 1, cb)], rfl⟩
    · exact ⟨[], by simp⟩

theorem run_fired (I : Interp) (evs : List Event) :
    ∀ h : Host, ∃ l, (run I h evs).2.fired = h.fired ++ l := by
  induction evs with
  | nil => intro h; exact ⟨[], by simp [run]⟩
  | cons ev evs ih =>
    intro h
    obtain ⟨l1, h1⟩ := trace_event_fired I h ev
    obtain ⟨l2, h2⟩ := ih (trace_event I h ev).2
    refine ⟨l1 ++ l2, ?_⟩
    simp only [run]
    rw [h2, h1, List.append_assoc]

/-- C9: with a configured interval `N`, `start(cb2)` with one argument succeeds whether or
not tracing is active and whatever the countdown was, and leaves countdown = interval,
callback = `cb2`, tracer installed. After it the first `N - 1` events fire nothing and event
`N` invokes `cb2`; if `cb2` returns normally without calling the module, every later firing
is of `cb2` too, every `N` events, so the replaced callback is not fired again. -/
theorem C9_start_replaces_session (I : Interp) (h : Host) (cb2 : PyObj) (N : Nat)
    (evs : List Event) (hi : h.st.trace_inspect_interval = (N : Int)) (hN : 1 ≤ N)
    (hmax : (N : Int) ≤ LONG_MAX I.LONG_BITS) :
    (crappy_multitasking__start h.st [cb2]).1 = .ok .none ∧
    (crappy_multitasking__start h.st [cb2]).2 = ⟨N, N, some cb2⟩ ∧
    (evs.length < N →
      (run I (Host.step I h (.call (.start [cb2]))) evs).1
        = List.replicate evs.length (some 0) ∧
      (run I (Host.step I h (.call (.start [cb2]))) evs).2.fired = h.fired) ∧
    (N ≤ evs.length → ∃ rest,
      (run I (Host.step I h (.call (.start [cb2]))) evs).2.fired
        = h.fired ++ (h.nevents + N, cb2) :: rest) ∧
    (I.quiet cb2 →
      (run I (Host.step I h (.call (.start [cb2]))) evs).2.fired
        = h.fired ++ (List.range (evs.length / N)).map
            (fun i => (h.nevents + (i + 1) * N, cb2))) := by
  have hN1 : (1 : Int) ≤ h.st.trace_inspect_interval := by rw [hi]; exact_mod_cast hN
  have hstart := start_ok h.st cb2 hN1
  rw [hi] at hstart
  simp only [Host.step, ModCall.exec, hstart]
  refine ⟨trivial, trivial, ?_, ?_, ?_⟩
  · intro hlen
    rw [run_countdown I cb2 evs _ N rfl rfl hmax hlen]
    exact ⟨rfl, rfl⟩
  · intro hlen
    rw [run_first_fire I cb2 evs _ N rfl rfl hN hmax hlen]
    simp only
    obtain ⟨l, hl⟩ := run_fired I (evs.drop N) (callback_trampoline I
      { st := ⟨N, N, some cb2⟩, nevents := h.nevents + N, fired := h.fired } cb2).2
    refine ⟨l, ?_⟩
    rw [hl]
    unfold callback_trampoline
    simp only
    split <;> simp
  · intro hq
    rw [run_quiet I cb2 hq N hN hmax evs _ N rfl rfl rfl hN hmax]
    simp only [firings_self N _ hN, List.append_cancel_left_eq]
    apply List.map_congr_left
    intro i _
    simp only [Prod.mk.injEq, and_true]
    ring

/-- C9 in the middle of a session of callback 7 with interval 3: `start` of callback 8. -/
theorem C9_start_replaces_session_witness :
    ((⟨⟨3, 2, some (.obj 7)⟩, 4, [(3, .obj 7)]⟩ : Host).st.trace_inspect_interval
        = ((3 : Nat) : Int) ∧ 1 ≤ 3 ∧ ((3 : Nat) : Int) ≤ LONG_MAX I64.LONG_BITS ∧
      I64.quiet (.obj 8)) ∧
    (crappy_multitasking__start (⟨3, 2, some (.obj 7)⟩ : State) [.obj 8]).2
      = ⟨3, 3, some (.obj 8)⟩ ∧
    (run I64 (Host.step I64 ⟨⟨3, 2, some (.obj 7)⟩, 4, [(3, .obj 7)]⟩
      (.call (.start [.obj 8]))) (List.replicate 6 ev0)).2.fired
        = [(3, .obj 7), (7, .obj 8), (10, .obj 8)] := by
  have h := C9_start_replaces_session I64 ⟨⟨3, 2, some (.obj 7)⟩, 4, [(3, .obj 7)]⟩ (.obj 8)
    3 (List.replicate 6 ev0) rfl (by decide) (by decide)
  refine ⟨⟨rfl, by decide, by decide, fun _ => rfl⟩, h.2.1, ?_⟩
  simpa [List.range_succ] using h.2.2.2.2 (fun _ => rfl)

theorem start_interval (s : State) (args : List PyObj) :
    (crappy_multitasking__start s args).2.trace_inspect_interval
      = s.trace_inspect_interval := by
  unfold crappy_multitasking__start
  split
  · rfl
  · cases PyArg_ParseTuple_O args <;> rfl

/-- Module calls none of which is `set_interval` keep the interval. -/
theorem exec_calls_interval (w : Nat) (calls : List ModCall) :
    ∀ s : State, (∀ c ∈ calls, c.isSetInterval = false) →
      (exec_calls w s calls).2.trace_inspect_interval = s.trace_inspect_interval := by
  induction calls with
  | nil => intro s _; rfl
  | cons c cs ih =>
    intro s hcs
    simp only [exec_calls]
    rw [ih _ (fun c hc => hcs c (List.mem_cons_of_mem _ hc))]
    rcases exec_interval w s c with ⟨h1, _⟩ | ⟨h1, _, _⟩
    · exact h1
    · rw [hcs c (List.mem_cons_self _ _)] at h1
      cases h1

theorem callback_trampoline_interval (I : Interp) (h : Host) (cb : PyObj)
    (hcs : ∀ c ∈ (I.call cb h.fired.length).calls, c.isSetInterval = false) :
    (callback_trampoline I h cb).2.st.trace_inspect_interval
      = h.st.trace_inspect_interval := by
  unfold callback_trampoline
  simp only
  split
  · simp only [PyEval_SetTrace]
    exact exec_calls_interval _ _ _ hcs
  · exact exec_calls_interval _ _ _ hcs

theorem trace_trampoline_interval (I : Interp) (h : Host) (cb : PyObj) (frame : Nat)
    (what : Int) (arg : PyObj)
    (hcs : ∀ c ∈ (I.call cb h.fired.length).calls, c.isSetInterval = false) :
    (trace_trampoline I h cb frame what arg).2.st.trace_inspect_interval
      = h.st.trace_inspect_interval := by
  unfold trace_trampoline
  simp only
  split
  · exact callback_trampoline_interval I
      { h with st := { h.st with tracetick := h.st.trace_inspect_interval } } cb hcs
  · rfl

theorem step_interval (I : Interp) (h : Host) (a : Action)
    (hcb : ∀ cb n, ∀ c ∈ (I.call cb n).calls, c.isSetInterval = false)
    (ha : a.isSetInterval = false) :
    (Host.step I h a).st.trace_inspect_interval = h.st.trace_inspect_interval := by
  cases a with
  | call c =>
    simp only [Host.step]
    rcases exec_interval I.LONG_BITS h.st c with ⟨h1, _⟩ | ⟨h1, _, _⟩
    · exact h1
    · simp only [Action.isSetInterval] at ha
      rw [ha] at h1
      cases h1
  | event ev =>
    simp only [Host.step, trace_event]
    cases hh : h.st.hook with
    | none => rfl
    | some cb =>
      simp only
      rw [trace_trampoline_interval I _ cb _ _ _ (hcb cb _)]

theorem steps_interval (I : Interp) (as : List Action)
    (hcb : ∀ cb n, ∀ c ∈ (I.call cb n).calls, c.isSetInterval = false) :
    ∀ h : Host, (∀ a ∈ as, a.isSetInterval = false) →
      (Host.steps I h as).st.trace_inspect_interval = h.st.trace_inspect_interval := by
  induction as with
  | nil => intro h _; rfl
  | cons a as ih =>
    intro h has
    simp only [Host.steps]
    rw [ih _ (fun a ha => has a (List.mem_cons_of_mem _ ha)),
      step_interval I h a hcb (has a (List.mem_cons_self _ _))]

/-- C10: `start` (successful or failed), `end` and `get_interval` leave the stored interval
unchanged, and so does every tracer step (firing or not, callback failing or not) unless
the fired callback itself calls `set_interval`; `set_interval` changes it only when it
succeeds. Hence after a successful `set_interval(N)`, any sequence of entry-point calls
other than `set_interval` and of trace events, with callbacks that do not call
`set_interval`, is followed by `get_interval()` returning `N`. -/
theorem C10_interval_persists (I : Interp) (s : State) (h : Host) (args : List PyObj)
    (cb : PyObj) (frame : Nat) (what : Int) (arg : PyObj) (N : Int) (as : List Action)
    (hN : 0 < N) (hmax : N ≤ LONG_MAX I.LONG_BITS)
    (hcb : ∀ cb n, ∀ c ∈ (I.call cb n).calls, c.isSetInterval = false)
    (has : ∀ a ∈ as, a.isSetInterval = false) :
    (crappy_multitasking__start s args).2.trace_inspect_interval
      = s.trace_inspect_interval ∧
    (crappy_multitasking__end s args).2.trace_inspect_interval
      = s.trace_inspect_interval ∧
    (crappy_multitasking__get_interval s args).2.trace_inspect_interval
      = s.trace_inspect_interval ∧
    (trace_trampoline I h cb frame what arg).2.st.trace_inspect_interval
      = h.st.trace_inspect_interval ∧
    ((crappy_multitasking__set_interval I.LONG_BITS s args).2.trace_inspect_interval
        ≠ s.trace_inspect_interval →
      (crappy_multitasking__set_interval I.LONG_BITS s args).1 = .ok .none) ∧
    (crappy_multitasking__set_interval I.LONG_BITS s [.int N]).1 = .ok .none ∧
    (crappy_multitasking__get_interval (Host.steps I (Host.ofState
      (crappy_multitasking__set_interval I.LONG_BITS s [.int N]).2) as).st args).1
        = .ok (.int N) := by
  refine ⟨start_interval s args, rfl, rfl,
    trace_trampoline_interval I h cb frame what arg (hcb cb _), ?_, ?_, ?_⟩
  · intro hne
    rcases set_interval_cases I.LONG_BITS s args with h1 | h1 | ⟨m, _, _, _, _, h2⟩ |
      ⟨m, _, _, _, h1, _⟩
    · exact absurd (by rw [h1.2]) hne
    · exact absurd (by rw [h1.2]) hne
    · exact absurd (by rw [h2]) hne
    · exact h1
  · rw [set_interval_ok I s N (by omega) hmax]
  · simp only [crappy_multitasking__get_interval]
    rw [steps_interval I as hcb _ has, set_interval_ok I s N (by omega) hmax]
    rfl

/-- C10 on a start / three events / end / start / two events sequence after
`set_interval(3)`: `get_interval()` still returns 3. -/
theorem C10_interval_persists_witness :
    ((0 : Int) < 3 ∧ (3 : Int) ≤ LONG_MAX I64raise.LONG_BITS ∧
      (∀ cb n, ∀ c ∈ (I64raise.call cb n).calls, c.isSetInterval = false) ∧
      (∀ a ∈ [Action.call (.start [.obj 7]), .event ev0, .event ev0, .event ev0,
          .call (.end_ []), .call (.start []), .call (.start [.obj 7]), .event ev0,
          .event ev0],
        a.isSetInterval = false)) ∧
    (crappy_multitasking__get_interval (Host.steps I64raise (Host.ofState
      (crappy_multitasking__set_interval I64raise.LONG_BITS State.init [.int 3]).2)
        [Action.call (.start [.obj 7]), .event ev0, .event ev0, .event ev0,
          .call (.end_ []), .call (.start []), .call (.start [.obj 7]), .event ev0,
          .event ev0]).st []).1
        = .ok (.int 3) :=
  ⟨⟨by decide, by decide, fun _ _ _ hc => by simp [I64raise] at hc, by decide⟩,
    (C10_interval_persists I64raise State.init (Host.ofState State.init) [] (.obj 7) 0 0
      .none 3 _ (by decide) (by decide) (fun _ _ _ hc => by simp [I64raise] at hc)
      (by decide)).2.2.2.2.2.2⟩

/-- Module calls among which no `set_interval` succeeds keep the interval. -/
theorem exec_calls_interval_of_no_success (w : Nat) (calls : List ModCall) :
    ∀ s : State, set_interval_succeeded calls (exec_calls w s calls).1 = false →
      (exec_calls w s calls).2.trace_inspect_interval = s.trace_inspect_interval := by
  induction calls with
  | nil => intro s _; rfl
  | cons c cs ih =>
    intro s hs
    simp only [exec_calls, set_interval_succeeded, List.zip_cons_cons, List.any_cons,
      Bool.or_eq_false_iff] at hs ⊢
    rw [ih _ hs.2]
    rcases exec_interval w s c with ⟨h1, _⟩ | ⟨h1, h2, _⟩
    · exact h1
    · rw [h1, h2] at hs
      exact absurd hs.1 (by decide)

/-- C11: `get_interval` never fails and leaves the state as it was; it returns the stored
interval, which is the sentinel -1 on the initial state and after any sequence of module
calls in which no `set_interval` succeeded (failed `set_interval` and failed `start` calls
included). -/
theorem C11_get_interval_reads_only (I : Interp) (s : State) (args : List PyObj)
    (calls : List ModCall) :
    crappy_multitasking__get_interval s args = (.ok (.int s.trace_inspect_interval), s) ∧
    (crappy_multitasking__get_interval State.init args).1 = .ok (.int (-1)) ∧
    (set_interval_succeeded calls (exec_calls I.LONG_BITS State.init calls).1 = false →
      (crappy_multitasking__get_interval
        (exec_calls I.LONG_BITS State.init calls).2 args).1 = .ok (.int (-1))) := by
  refine ⟨rfl, rfl, ?_⟩
  intro hs
  simp only [crappy_multitasking__get_interval]
  rw [exec_calls_interval_of_no_success I.LONG_BITS calls State.init hs]
  rfl

/-- C11 after a failed `set_interval(0)`, a failed `start(cb)` and an `end()`. -/
theorem C11_get_interval_reads_only_witness :
    set_interval_succeeded [.set_interval [.int 0], .start [.obj 7], .end_ []]
      (exec_calls I64.LONG_BITS State.init
        [.set_interval [.int 0], .start [.obj 7], .end_ []]).1 = false ∧
    (crappy_multitasking__get_interval (exec_calls I64.LONG_BITS State.init
      [.set_interval [.int 0], .start [.obj 7], .end_ []]).2 []).1 = .ok (.int (-1)) :=
  ⟨by set_option maxRecDepth 100000 in decide,
    (C11_get_interval_reads_only I64 State.init []
      [.set_interval [.int 0], .start [.obj 7], .end_ []]).2.2
      (by set_option maxRecDepth 100000 in decide)⟩

/-- C12: one tracer step from countdown `c` and interval `N`. If the decremented countdown
is not 0 it is stored, no callback runs, nothing else changes and the step returns 0. If it
is 0 the countdown is first reset to `N`, then the callback is invoked exactly once: its
module calls run from the state whose countdown is `N`, and the step returns the
trampoline's result (-1 with the hook cleared when the callback raises, 0 otherwise). The
outcome does not depend on the frame, the event kind or the event argument. The decrement
is the machine one; it is the integer `c - 1` for every `long` above `LONG_MIN`. -/
theorem C12_single_tracer_step (I : Interp) (h : Host) (cb : PyObj) (frame frame2 : Nat)
    (what what2 : Int) (arg arg2 : PyObj) :
    trace_trampoline I h cb frame what arg = trace_trampoline I h cb frame2 what2 arg2 ∧
    (LONG_MIN I.LONG_BITS < h.st.tracetick → h.st.tracetick ≤ LONG_MAX I.LONG_BITS →
      wrapLong I.LONG_BITS (h.st.tracetick - 1) = h.st.tracetick - 1) ∧
    (wrapLong I.LONG_BITS (h.st.tracetick - 1) ≠ 0 →
      trace_trampoline I h cb frame what arg
        = (0, { h with st := { h.st with
                  tracetick := wrapLong I.LONG_BITS (h.st.tracetick - 1) } })) ∧
    (wrapLong I.LONG_BITS (h.st.tracetick - 1) = 0 →
      trace_trampoline I h cb frame what arg
        = callback_trampoline I
            { h with st := { h.st with tracetick := h.st.trace_inspect_interval } } cb ∧
      (trace_trampoline I h cb frame what arg).1
        = (if (I.call cb h.fired.length).raises then -1 else 0) ∧
      (trace_trampoline I h cb frame what arg).2.fired = h.fired ++ [(h.nevents, cb)] ∧
      (trace_trampoline I h cb frame what arg).2.nevents = h.nevents ∧
      (trace_trampoline I h cb frame what arg).2.st
        = (if (I.call cb h.fired.length).raises then
            PyEval_SetTrace (exec_calls I.LONG_BITS
              { h.st with tracetick := h.st.trace_inspect_interval }
              (I.call cb h.fired.length).calls).2 none
          else
            (exec_calls I.LONG_BITS
              { h.st with tracetick := h.st.trace_inspect_interval }
              (I.call cb h.fired.length).calls).2)) := by
  refine ⟨rfl, ?_, ?_, ?_⟩
  · intro hmin hmax
    have := I.long_ok
    exact wrapLong_of_range _ (by omega) _ (by omega) (by omega)
  · intro hne
    unfold trace_trampoline
    simp only
    rw [if_neg hne]
  · intro hz
    unfold trace_trampoline
    simp only
    rw [if_pos hz]
    unfold callback_trampoline
    simp only
    refine ⟨trivial, ?_⟩
    split <;> exact ⟨rfl, rfl, rfl, rfl⟩

/-- C12 on a countdown of 5 (stored as 4, no call) and on a countdown of 1 with interval 3
(countdown back at 3, one invocation, result 0). -/
theorem C12_single_tracer_step_witness :
    (wrapLong I64.LONG_BITS ((⟨⟨3, 5, some (.obj 7)⟩, 2, []⟩ : Host).st.tracetick - 1) ≠ 0 ∧
      wrapLong I64.LONG_BITS ((⟨⟨3, 1, some (.obj 7)⟩, 2, []⟩ : Host).st.tracetick - 1) = 0) ∧
    trace_trampoline I64 ⟨⟨3, 5, some (.obj 7)⟩, 2, []⟩ (.obj 7) 0 0 .none
      = (0, ⟨⟨3, 4, some (.obj 7)⟩, 2, []⟩) ∧
    trace_trampoline I64 ⟨⟨3, 1, some (.obj 7)⟩, 2, []⟩ (.obj 7) 0 0 .none
      = (0, ⟨⟨3, 3, some (.obj 7)⟩, 2, [(2, .obj 7)]⟩) := by
  have h5 : wrapLong I64.LONG_BITS ((⟨⟨3, 5, some (.obj 7)⟩, 2, []⟩ : Host).st.tracetick - 1)
      = 4 := by decide
  have h1 : wrapLong I64.LONG_BITS ((⟨⟨3, 1, some (.obj 7)⟩, 2, []⟩ : Host).st.tracetick - 1)
      = 0 := by decide
  have a := (C12_single_tracer_step I64 ⟨⟨3, 5, some (.obj 7)⟩, 2, []⟩ (.obj 7) 0 0 0 0
    .none .none).2.2.1 (by rw [h5]; decide)
  have b := (C12_single_tracer_step I64 ⟨⟨3, 1, some (.obj 7)⟩, 2, []⟩ (.obj 7) 0 0 0 0
    .none .none).2.2.2 h1
  refine ⟨⟨by rw [h5]; decide, h1⟩, ?_, ?_⟩
  · rw [a, h5]
  · rw [b.1]
    rfl

theorem wf_init (I : Interp) : State.wf I.LONG_BITS State.init := by
  have := LONG_MAX_pos I
  unfold State.wf State.init
  simp only [ne_eq, not_true_eq_false, false_implies, and_true, true_or, true_and]
  omega

theorem wf_start (w : Nat) (s : State) (args : List PyObj) (hs : State.wf w s) :
    State.wf w (crappy_multitasking__start s args).2 := by
  obtain ⟨h1, h2, h3, h4, h5⟩ := hs
  unfold crappy_multitasking__start
  split
  · exact ⟨h1, h2, h3, h4, h5⟩
  · rename_i hpos
    cases PyArg_ParseTuple_O args with
    | error e =>
      refine ⟨h1, h2, Or.inr (by simp only; omega), h2, ?_⟩
      intro _
      simp only
      omega
    | ok cb =>
      refine ⟨h1, h2, Or.inr (by simp only [PyEval_SetTrace]; omega), h2, ?_⟩
      intro _
      simp only [PyEval_SetTrace]
      omega

theorem wf_set_interval (w : Nat) (s : State) (args : List PyObj) (hs : State.wf w s) :
    State.wf w (crappy_multitasking__set_interval w s args).2 := by
  rcases set_interval_cases w s args with h | h | ⟨m, _, _, _, _, h⟩ | ⟨m, _, hm, hmax, _, h⟩
  · rw [h.2]; exact hs
  · rw [h.2]; exact hs
  · rw [h]; exact hs
  · rw [h]
    obtain ⟨_, _, h3, h4, h5⟩ := hs
    refine ⟨Or.inr (by simp only; omega), hmax, h3, h4, ?_⟩
    intro hk
    have := h5 hk
    simp only
    omega

theorem wf_exec (w : Nat) (s : State) (c : ModCall) (hs : State.wf w s) :
    State.wf w (c.exec w s).2 := by
  cases c with
  | start args => exact wf_start w s args hs
  | end_ args =>
    obtain ⟨h1, h2, h3, h4, _⟩ := hs
    exact ⟨h1, h2, h3, h4, fun hk => absurd rfl hk⟩
  | get_interval args => exact hs
  | set_interval args => exact wf_set_interval w s args hs

theorem wf_exec_calls (w : Nat) (calls : List ModCall) :
    ∀ s : State, State.wf w s → State.wf w (exec_calls w s calls).2 := by
  induction calls with
  | nil => intro s hs; exact hs
  | cons c cs ih =>
    intro s hs
    simp only [exec_calls]
    exact ih _ (wf_exec w s c hs)

theorem wf_callback_trampoline (I : Interp) (h : Host) (cb : PyObj)
    (hs : State.wf I.LONG_BITS h.st) :
    State.wf I.LONG_BITS (callback_trampoline I h cb).2.st := by
  have key := wf_exec_calls I.LONG_BITS (I.call cb h.fired.length).calls h.st hs
  unfold callback_trampoline
  simp only
  split
  · obtain ⟨h1, h2, h3, h4, _⟩ := key
    exact ⟨h1, h2, h3, h4, fun hk => absurd rfl hk⟩
  · exact key

theorem wf_trace_trampoline (I : Interp) (h : Host) (cb : PyObj) (frame : Nat) (what : Int)
    (arg : PyObj) (hs : State.wf I.LONG_BITS h.st) (hh : h.st.hook ≠ none) :
    State.wf I.LONG_BITS (trace_trampoline I h cb frame what arg).2.st := by
  obtain ⟨h1, h2, h3, h4, h5⟩ := hs
  obtain ⟨hi, ht⟩ := h5 hh
  unfold trace_trampoline
  simp only
  rw [wrapLong_dec I _ ht h4]
  split
  · apply wf_callback_trampoline
    exact ⟨h1, h2, Or.inr hi, h2, fun _ => ⟨hi, hi⟩⟩
  · rename_i hne
    refine ⟨h1, h2, Or.inr (by simp only; omega), by simp only; omega, ?_⟩
    intro _
    simp only
    omega

theorem wf_step (I : Interp) (h : Host) (a : Action) (hs : State.wf I.LONG_BITS h.st) :
    State.wf I.LONG_BITS (Host.step I h a).st := by
  cases a with
  | call c => exact wf_exec I.LONG_BITS h.st c hs
  | event ev =>
    simp only [Host.step, trace_event]
    cases hh : h.st.hook with
    | none => exact hs
    | some cb =>
      simp only
      exact wf_trace_trampoline I _ cb _ _ _ hs (by simp [hh])

theorem wf_steps (I : Interp) (as : List Action) :
    ∀ h : Host, State.wf I.LONG_BITS h.st → State.wf I.LONG_BITS (Host.steps I h as).st := by
  induction as with
  | nil => intro h hs; exact hs
  | cons a as ih =>
    intro h hs
    simp only [Host.steps]
    exact ih _ (wf_step I h a hs)

/-- C13: in every state reached from the initial state by any interleaving of entry-point
calls and execution events, with callbacks that may return, raise or call the module, the
interval is -1 or at least 1, the countdown is its initial -1 or at least 1, and while
tracing is Active the interval and the countdown are both at least 1, so that the next
decrement does not wrap and does not go below zero. -/
theorem C13_reachable_invariant (I : Interp) (as : List Action) :
    ((Host.steps I (Host.ofState State.init) as).st.trace_inspect_interval = -1 ∨
      1 ≤ (Host.steps I (Host.ofState State.init) as).st.trace_inspect_interval) ∧
    ((Host.steps I (Host.ofState State.init) as).st.tracetick = -1 ∨
      1 ≤ (Host.steps I (Host.ofState State.init) as).st.tracetick) ∧
    ((Host.steps I (Host.ofState State.init) as).st.active = true →
      1 ≤ (Host.steps I (Host.ofState State.init) as).st.trace_inspect_interval ∧
      1 ≤ (Host.steps I (Host.ofState State.init) as).st.tracetick ∧
      wrapLong I.LONG_BITS ((Host.steps I (Host.ofState State.init) as).st.tracetick - 1)
        = (Host.steps I (Host.ofState State.init) as).st.tracetick - 1 ∧
      0 ≤ wrapLong I.LONG_BITS
        ((Host.steps I (Host.ofState State.init) as).st.tracetick - 1)) := by
  obtain ⟨h1, _, h3, h4, h5⟩ := wf_steps I as (Host.ofState State.init) (wf_init I)
  refine ⟨h1, h3, ?_⟩
  intro ha
  have hk : (Host.steps I (Host.ofState State.init) as).st.hook ≠ none := by
    intro hn
    simp [State.active, hn] at ha
  obtain ⟨hi, ht⟩ := h5 hk
  rw [wrapLong_dec I _ ht h4]
  exact ⟨hi, ht, rfl, by omega⟩

/-- C13 on a run that is Active at its end: `set_interval(3)`, `start(cb)`, four events. -/
theorem C13_reachable_invariant_witness :
    (Host.steps I64 (Host.ofState State.init)
      [.call (.set_interval [.int 3]), .call (.start [.obj 7]), .event ev0, .event ev0,
        .event ev0, .event ev0]).st.active = true ∧
    1 ≤ (Host.steps I64 (Host.ofState State.init)
      [.call (.set_interval [.int 3]), .call (.start [.obj 7]), .event ev0, .event ev0,
        .event ev0, .event ev0]).st.tracetick :=
  ⟨by set_option maxRecDepth 100000 in decide,
    ((C13_reachable_invariant I64
      [.call (.set_interval [.int 3]), .call (.start [.obj 7]), .event ev0, .event ev0,
        .event ev0, .event ev0]).2.2 (by set_option maxRecDepth 100000 in decide)).2.1⟩

theorem set_interval_frame (w : Nat) (s : State) (args : List PyObj) :
    (crappy_multitasking__set_interval w s args).2
      = { s with trace_inspect_interval :=
            (crappy_multitasking__set_interval w s args).2.trace_inspect_interval } := by
  rcases set_interval_cases w s args with h | h | ⟨m, _, _, _, _, h⟩ | ⟨m, _, _, _, _, h⟩
  · rw [h.2]
  · rw [h.2]
  · rw [h]
  · rw [h]

theorem start_cases (s : State) (args : List PyObj) :
    (s.trace_inspect_interval ≤ 0 ∧
      crappy_multitasking__start s args = (.error start_state_error, s)) ∨
    (0 < s.trace_inspect_interval ∧ args.length ≠ 1 ∧
      crappy_multitasking__start s args
        = (.error .TypeError, { s with tracetick := s.trace_inspect_interval })) ∨
    (0 < s.trace_inspect_interval ∧ ∃ cb, args = [cb] ∧
      crappy_multitasking__start s args
        = (.ok .none, ⟨s.trace_inspect_interval, s.trace_inspect_interval, some cb⟩)) := by
  by_cases hi : s.trace_inspect_interval ≤ 0
  · exact Or.inl ⟨hi, start_unconfigured s args hi⟩
  · right
    unfold crappy_multitasking__start
    rw [if_neg hi]
    rcases args with _ | ⟨o, _ | ⟨o2, rest⟩⟩
    · exact Or.inl ⟨by omega, by simp, rfl⟩
    · exact Or.inr ⟨by omega, o, rfl, rfl⟩
    · exact Or.inl ⟨by omega, by simp, rfl⟩

theorem trace_trampoline_nonpos (I : Interp) (h : Host) (self : PyObj) (frame : Nat)
    (what : Int) (arg : PyObj) (h0 : h.st.tracetick ≤ 0)
    (hmin : LONG_MIN I.LONG_BITS < h.st.tracetick) :
    trace_trampoline I h self frame what arg
      = (0, { h with st := { h.st with tracetick := h.st.tracetick - 1 } }) := by
  have := LONG_MAX_pos I
  have := I.long_ok
  unfold trace_trampoline
  simp only
  rw [wrapLong_of_range _ (by omega) _ (by omega) (by omega)]
  rw [if_neg (by omega)]

/-- While the non-positive countdown stays above `LONG_MIN` the steps only decrement it. -/
theorem run_nonpos (I : Interp) (cb : PyObj) (evs : List Event) :
    ∀ h : Host, h.st.hook = some cb → h.st.tracetick ≤ 0 →
      (evs.length : Int) ≤ h.st.tracetick - LONG_MIN I.LONG_BITS →
      run I h evs = (List.replicate evs.length (some 0),
        { h with
          st := { h.st with tracetick := h.st.tracetick - evs.length }
          nevents := h.nevents + evs.length }) := by
  induction evs with
  | nil =>
    intro h _ _ _
    simp [run]
  | cons ev evs ih =>
    intro h hh h0 hlen
    simp only [List.length_cons, Nat.cast_add, Nat.cast_one] at hlen
    simp only [run, trace_event, hh, List.length_cons, List.replicate_succ]
    rw [trace_trampoline_nonpos I _ _ _ _ _ (by simp only; omega) (by simp only; omega)]
    simp only
    rw [ih _ (by simpa using hh) (by simp only; omega) (by simp only; omega)]
    refine Prod.ext rfl ?_
    simp only [Host.mk.injEq, and_true, State.mk.injEq, true_and]
    refine ⟨⟨?_, by rw [hh]⟩, by omega⟩
    push_cast
    omega

theorem wrapLong_below_min (I : Interp) :
    wrapLong I.LONG_BITS (LONG_MIN I.LONG_BITS - 1) = LONG_MAX I.LONG_BITS := by
  have hw := I.long_ok
  unfold wrapLong LONG_MIN LONG_MAX
  rw [two_pow_bits I.LONG_BITS (by omega)]
  have hp : (0 : Int) < 2 ^ (I.LONG_BITS - 1) := by positivity
  generalize (2 : Int) ^ (I.LONG_BITS - 1) = p at *
  have e : -p - 1 + p = (2 * p - 1) + (2 * p) * (-1) := by ring
  rw [e, Int.add_mul_emod_self_left, Int.emod_eq_of_lt (by omega) (by omega)]
  omega

/-- The decrement at `LONG_MIN` wraps to `LONG_MAX`, and the callback is then invoked
`LONG_MAX` events later. -/
theorem run_refires_after_wrap (I : Interp) (cb : PyObj) (ev : Event) (evs : List Event)
    (h : Host) (hh : h.st.hook = some cb) (ht : h.st.tracetick = LONG_MIN I.LONG_BITS)
    (hlen : (evs.length : Int) = LONG_MAX I.LONG_BITS) :
    (h.nevents + 1 + evs.length, cb) ∈ (run I h (ev :: evs)).2.fired := by
  have hpos := LONG_MAX_pos I
  have hstep : trace_trampoline I { h with nevents := h.nevents + 1 } cb ev.frame ev.what
      ev.arg = (0, { st := { h.st with tracetick := LONG_MAX I.LONG_BITS }
                     nevents := h.nevents + 1
                     fired := h.fired }) := by
    unfold trace_trampoline
    simp only
    rw [ht, wrapLong_below_min I, if_neg (by omega)]
  simp only [run, trace_event, hh, hstep]
  rw [run_first_fire I cb evs
    ⟨⟨h.st.trace_inspect_interval, LONG_MAX I.LONG_BITS, some cb⟩, h.nevents + 1, h.fired⟩
    evs.length rfl (by simp only; omega)
    (by omega) (by omega) (le_refl _)]
  simp only [List.drop_length, run]
  unfold callback_trampoline
  simp only
  split <;> simp

/-- C14 as stated fails for large `k`: with a 64-bit `long`, an Active session whose countdown
stands at `LONG_MIN = -2^63` (negative) wraps on its first step and invokes the callback on
step `2^63`. -/
theorem C14_counterexample :
    (⟨⟨3, -9223372036854775808, some (.obj 7)⟩, 0, []⟩ : Host).st.tracetick ≤ 0 ∧
    (9223372036854775808, PyObj.obj 7) ∈
      (run I64 ⟨⟨3, -9223372036854775808, some (.obj 7)⟩, 0, []⟩
        (List.replicate 9223372036854775808 ev0)).2.fired := by
  have h := run_refires_after_wrap I64 (.obj 7) ev0 (List.replicate 9223372036854775807 ev0)
    ⟨⟨3, -9223372036854775808, some (.obj 7)⟩, 0, []⟩ rfl (by decide)
    (by rw [List.length_replicate]; decide)
  rw [List.length_replicate] at h
  refine ⟨by decide, ?_⟩
  exact h

/-- C14 (amended): if the countdown `c` is zero or negative when a tracer step begins in an
Active session, then for every number `k <= c - LONG_MIN` of consecutive tracer steps (as
long as the decrement does not overflow the C long) no callback is invoked, every step
returns 0, and the countdown goes down to `c - k`. -/
theorem C14_nonpositive_countdown (I : Interp) (h : Host) (cb : PyObj) (evs : List Event)
    (hh : h.st.hook = some cb) (h0 : h.st.tracetick ≤ 0)
    (hk : (evs.length : Int) ≤ h.st.tracetick - LONG_MIN I.LONG_BITS) :
    (run I h evs).1 = List.replicate evs.length (some 0) ∧
    (run I h evs).2.fired = h.fired ∧
    (run I h evs).2.st.tracetick = h.st.tracetick - evs.length ∧
    (run I h evs).2.st.hook = some cb ∧
    (run I h evs).2.st.trace_inspect_interval = h.st.trace_inspect_interval := by
  rw [run_nonpos I cb evs h hh h0 hk]
  exact ⟨rfl, rfl, rfl, hh, rfl⟩

/-- C14 (amended) on a countdown of 0 and of -4, five steps each. -/
theorem C14_nonpositive_countdown_witness :
    ((⟨⟨3, -4, some (.obj 7)⟩, 0, []⟩ : Host).st.hook = some (.obj 7) ∧
      (⟨⟨3, -4, some (.obj 7)⟩, 0, []⟩ : Host).st.tracetick ≤ 0 ∧
      ((List.replicate 5 ev0).length : Int)
        ≤ (⟨⟨3, -4, some (.obj 7)⟩, 0, []⟩ : Host).st.tracetick - LONG_MIN I64.LONG_BITS) ∧
    (run I64 ⟨⟨3, -4, some (.obj 7)⟩, 0, []⟩ (List.replicate 5 ev0)).2.fired = [] ∧
    (run I64 ⟨⟨3, -4, some (.obj 7)⟩, 0, []⟩ (List.replicate 5 ev0)).2.st.tracetick = -9 := by
  have h := C14_nonpositive_countdown I64 ⟨⟨3, -4, some (.obj 7)⟩, 0, []⟩ (.obj 7)
    (List.replicate 5 ev0) rfl (by decide) (by decide)
  exact ⟨⟨rfl, by decide, by decide⟩, h.2.1, h.2.2.1⟩

/-- C15: the status starts Inactive; a successful `start` makes it Active with the given
callback, `end` makes it Inactive, a raising callback makes it Inactive; `set_interval`
(whether it succeeds or fails), `get_interval`, a failed `start`, a tracer step that does
not fire, and a tracer step whose callback returns normally without calling the module
leave the installed hook, hence the status and the stored callback, unchanged. -/
theorem C15_status_transitions (I : Interp) (s : State) (h : Host) (args : List PyObj)
    (cb : PyObj) (frame : Nat) (what : Int) (arg : PyObj) :
    State.init.active = false ∧
    ((crappy_multitasking__start s args).1.isOk = true →
      (crappy_multitasking__start s args).2.active = true ∧
      ∃ o, args = [o] ∧ (crappy_multitasking__start s args).2.hook = some o) ∧
    (crappy_multitasking__end s args).2.active = false ∧
    ((I.call cb h.fired.length).raises = true →
      wrapLong I.LONG_BITS (h.st.tracetick - 1) = 0 →
      (trace_trampoline I h cb frame what arg).2.st.active = false) ∧
    (crappy_multitasking__set_interval I.LONG_BITS s args).2.hook = s.hook ∧
    (crappy_multitasking__get_interval s args).2.hook = s.hook ∧
    ((crappy_multitasking__start s args).1.isOk = false →
      (crappy_multitasking__start s args).2.hook = s.hook) ∧
    (wrapLong I.LONG_BITS (h.st.tracetick - 1) ≠ 0 →
      (trace_trampoline I h cb frame what arg).2.st.hook = h.st.hook) ∧
    (I.call cb h.fired.length = ⟨[], false⟩ →
      (trace_trampoline I h cb frame what arg).2.st.hook = h.st.hook) := by
  refine ⟨rfl, ?_, rfl, ?_, ?_, rfl, ?_, ?_, ?_⟩
  · intro hok
    rcases start_cases s args with ⟨_, h1⟩ | ⟨_, _, h1⟩ | ⟨_, o, ho, h1⟩
    · rw [h1] at hok; cases hok
    · rw [h1] at hok; cases hok
    · rw [h1]
      exact ⟨rfl, o, ho, rfl⟩
  · intro hr hz
    unfold trace_trampoline
    simp only
    rw [if_pos hz]
    unfold callback_trampoline
    simp only
    rw [if_pos hr]
    rfl
  · rw [set_interval_frame]
  · intro hfail
    rcases start_cases s args with ⟨_, h1⟩ | ⟨_, _, h1⟩ | ⟨_, o, _, h1⟩
    · rw [h1]
    · rw [h1]
    · rw [h1] at hfail; cases hfail
  · intro hne
    unfold trace_trampoline
    simp only
    rw [if_neg hne]
  · intro hq
    unfold trace_trampoline
    simp only
    split
    · unfold callback_trampoline
      simp only
      rw [hq]
      rfl
    · rfl

/-- C15 on a failed `start` inside a session and on a firing step with a raising callback. -/
theorem C15_status_transitions_witness :
    ((crappy_multitasking__start ⟨3, 2, some (.obj 7)⟩ []).1.isOk = false ∧
      (I64raise.call (.obj 7) 0).raises = true ∧
      wrapLong I64raise.LONG_BITS ((⟨⟨3, 1, some (.obj 7)⟩, 1, []⟩ : Host).st.tracetick - 1)
        = 0) ∧
    (crappy_multitasking__start ⟨3, 2, some (.obj 7)⟩ []).2.hook = some (.obj 7) ∧
    (trace_trampoline I64raise ⟨⟨3, 1, some (.obj 7)⟩, 1, []⟩ (.obj 7) 0 0 .none).2.st.active
      = false := by
  have hz : wrapLong I64raise.LONG_BITS
      ((⟨⟨3, 1, some (.obj 7)⟩, 1, []⟩ : Host).st.tracetick - 1) = 0 := by decide
  exact ⟨⟨rfl, rfl, hz⟩,
    (C15_status_transitions I64raise ⟨3, 2, some (.obj 7)⟩ ⟨⟨3, 1, some (.obj 7)⟩, 1, []⟩ []
      (.obj 7) 0 0 .none).2.2.2.2.2.2.1 rfl,
    (C15_status_transitions I64raise ⟨3, 2, some (.obj 7)⟩ ⟨⟨3, 1, some (.obj 7)⟩, 1, []⟩ []
      (.obj 7) 0 0 .none).2.2.2.1 rfl hz⟩

/-- C16: `set_interval`, whether it succeeds or fails and whether or not tracing is active,
leaves the countdown, the installed hook (status and callback), the event count and the
invocation log as they were; the stored interval is the only thing it can change. -/
theorem C16_set_interval_changes_interval_only (I : Interp) (s : State) (h : Host)
    (args : List PyObj) :
    (crappy_multitasking__set_interval I.LONG_BITS s args).2.tracetick = s.tracetick ∧
    (crappy_multitasking__set_interval I.LONG_BITS s args).2.hook = s.hook ∧
    (crappy_multitasking__set_interval I.LONG_BITS s args).2.active = s.active ∧
    (crappy_multitasking__set_interval I.LONG_BITS s args).2
      = { s with trace_inspect_interval :=
            (crappy_multitasking__set_interval I.LONG_BITS s args).2.trace_inspect_interval } ∧
    (Host.step I h (.call (.set_interval args))).fired = h.fired ∧
    (Host.step I h (.call (.set_interval args))).nevents = h.nevents := by
  have hf := set_interval_frame I.LONG_BITS s args
  refine ⟨by rw [hf], by rw [hf], by rw [hf]; rfl, hf, rfl, rfl⟩

/-- C17: whenever `start` returns an error the installed hook and callback are what they
were. With no interval configured (tested first, whatever the arguments) the whole state is
unchanged; with a configured interval and an argument list that is not exactly one object
the countdown has been reset to the interval all the same, so that in a running session
with interval `N` the next firing comes `N` events after the failed `start`, and every `N`
events from there (callback returning normally without calling the module). -/
theorem C17_start_error_paths (I : Interp) (s : State) (args : List PyObj) (e : PyErr)
    (h : Host) (cb : PyObj) (N : Nat) (evs : List Event) :
    ((crappy_multitasking__start s args).1 = .error e →
      (crappy_multitasking__start s args).2.hook = s.hook) ∧
    (s.trace_inspect_interval ≤ 0 →
      crappy_multitasking__start s args
        = (.error (.ValueError
            "You must call \x27set_interval\x27 before calling \x27start\x27."), s)) ∧
    (0 < s.trace_inspect_interval → args.length ≠ 1 →
      crappy_multitasking__start s args
        = (.error .TypeError, { s with tracetick := s.trace_inspect_interval })) ∧
    (h.st.hook = some cb → h.st.trace_inspect_interval = (N : Int) → 1 ≤ N →
      (N : Int) ≤ LONG_MAX I.LONG_BITS → I.quiet cb → args.length ≠ 1 →
      (Host.step I h (.call (.start args))).st = ⟨N, N, some cb⟩ ∧
      (run I (Host.step I h (.call (.start args))) evs).2.fired
        = h.fired ++ (List.range (evs.length / N)).map
            (fun i => (h.nevents + (i + 1) * N, cb))) := by
  refine ⟨?_, ?_, ?_, ?_⟩
  · intro he
    rcases start_cases s args with ⟨_, h1⟩ | ⟨_, _, h1⟩ | ⟨_, o, _, h1⟩
    · rw [h1]
    · rw [h1]
    · rw [h1] at he; cases he
  · intro hi
    exact start_unconfigured s args hi
  · intro hi hlen
    rcases start_cases s args with ⟨h0, _⟩ | ⟨_, _, h1⟩ | ⟨_, o, ho, _⟩
    · omega
    · exact h1
    · subst ho
      exact absurd rfl hlen
  · intro hh hi hN hmax hq hlen
    have hst : (Host.step I h (.call (.start args))).st = ⟨N, N, some cb⟩ := by
      simp only [Host.step, ModCall.exec]
      rcases start_cases h.st args with ⟨h0, _⟩ | ⟨_, _, h1⟩ | ⟨_, o, ho, _⟩
      · omega
      · rw [h1, hi, hh]
      · subst ho
        exact absurd rfl hlen
    refine ⟨hst, ?_⟩
    rw [run_quiet I cb hq N hN hmax evs _ N (by rw [hst]) (by rw [hst]) (by rw [hst]) hN hmax]
    simp only [firings_self N _ hN, Host.step, List.append_cancel_left_eq]
    apply List.map_congr_left
    intro i _
    simp only [Prod.mk.injEq, and_true]
    ring

/-- C17 in a session of interval 3 whose countdown stands at 1: `start()` without argument
fails, puts the countdown back to 3, and the callback fires on events 3 and 6 after it. -/
theorem C17_start_error_paths_witness :
    ((crappy_multitasking__start ⟨3, 1, some (.obj 7)⟩ []).1 = .error .TypeError ∧
      (0 : Int) < (⟨3, 1, some (.obj 7)⟩ : State).trace_inspect_interval ∧
      ([] : List PyObj).length ≠ 1 ∧ I64.quiet (.obj 7)) ∧
    (crappy_multitasking__start ⟨3, 1, some (.obj 7)⟩ []).2 = ⟨3, 3, some (.obj 7)⟩ ∧
    (run I64 (Host.step I64 ⟨⟨3, 1, some (.obj 7)⟩, 5, []⟩ (.call (.start [])))
      (List.replicate 6 ev0)).2.fired = [(8, .obj 7), (11, .obj 7)] := by
  have h := C17_start_error_paths I64 ⟨3, 1, some (.obj 7)⟩ [] .TypeError
    ⟨⟨3, 1, some (.obj 7)⟩, 5, []⟩ (.obj 7) 3 (List.replicate 6 ev0)
  refine ⟨⟨rfl, by decide, by decide, fun _ => rfl⟩, ?_, ?_⟩
  · rw [h.2.2.1 (by decide) (by decide)]
  · simpa [List.range_succ] using
      (h.2.2.2 rfl rfl (by decide) (by decide) (fun _ => rfl) (by decide)).2

/-- C18: when tracing is Active with countdown `c >= 1` and `set_interval(M)` succeeds
(`M > 0`), then with a callback that returns normally and does not call the module every
following event returns 0, the next firing comes exactly `c` events later whatever `M` is,
and each later firing comes exactly `M` events after the one before, with no `start` in
between. -/
theorem C18_schedule_after_interval_change (I : Interp) (h : Host) (cb : PyObj) (c M : Nat)
    (evs : List Event) (hh : h.st.hook = some cb) (ht : h.st.tracetick = (c : Int))
    (hc : 1 ≤ c) (hcmax : (c : Int) ≤ LONG_MAX I.LONG_BITS) (hM : 1 ≤ M)
    (hMmax : (M : Int) ≤ LONG_MAX I.LONG_BITS) (hq : I.quiet cb) :
    (crappy_multitasking__set_interval I.LONG_BITS h.st [.int M]).1 = .ok .none ∧
    (run I (Host.step I h (.call (.set_interval [.int M]))) evs).1
      = List.replicate evs.length (some 0) ∧
    (run I (Host.step I h (.call (.set_interval [.int M]))) evs).2.fired
      = h.fired ++ (List.range (if evs.length < c then 0 else (evs.length - c) / M + 1)).map
          (fun i => (h.nevents + c + i * M, cb)) := by
  have hM1 : (1 : Int) ≤ (M : Int) := by exact_mod_cast hM
  have hset := set_interval_ok I h.st M hM1 hMmax
  have hrun := run_quiet I cb hq M hM hMmax evs
    { h with st := { h.st with trace_inspect_interval := (M : Int) } } c hh ht rfl hc hcmax
  simp only [Host.step, ModCall.exec, hset]
  rw [hrun]
  exact ⟨trivial, rfl, rfl⟩

/-- C18 with countdown 2, old interval 3, new interval 5 and thirteen events: firings on
events 2, 7 and 12 after the change. -/
theorem C18_schedule_after_interval_change_witness :
    ((⟨⟨3, 2, some (.obj 7)⟩, 4, []⟩ : Host).st.hook = some (.obj 7) ∧
      (⟨⟨3, 2, some (.obj 7)⟩, 4, []⟩ : Host).st.tracetick = ((2 : Nat) : Int) ∧ 1 ≤ 2 ∧
      ((2 : Nat) : Int) ≤ LONG_MAX I64.LONG_BITS ∧ 1 ≤ 5 ∧
      ((5 : Nat) : Int) ≤ LONG_MAX I64.LONG_BITS ∧ I64.quiet (.obj 7)) ∧
    (run I64 (Host.step I64 ⟨⟨3, 2, some (.obj 7)⟩, 4, []⟩
      (.call (.set_interval [.int (5 : Nat)]))) (List.replicate 13 ev0)).2.fired
        = [(6, .obj 7), (11, .obj 7), (16, .obj 7)] := by
  have h := C18_schedule_after_interval_change I64 ⟨⟨3, 2, some (.obj 7)⟩, 4, []⟩ (.obj 7)
    2 5 (List.replicate 13 ev0) rfl rfl (by decide) (by decide) (by decide) (by decide)
    (fun _ => rfl)
  refine ⟨⟨rfl, rfl, by decide, by decide, by decide, by decide, fun _ => rfl⟩, ?_⟩
  simpa [List.range_succ] using h.2.2

end CrappyMultitasking
